import Mathlib

/-
  Shallow embedding of the OctopOS file system (src/original_C/file_system.c,
  file_system.h).  The block device collaborator (per-block files on the host
  file system in the reference implementation) is modeled as a total function
  from block index and byte offset to byte value, with absent blocks reading
  as zero; the reference implementation's lazy zero-fill of absent blocks is
  therefore a semantic no-op, and device I/O never fails in the model (the
  spec, section 6, treats the device as an external collaborator with
  deterministic byte storage).  C `uint32_t` quantities are modeled as `Nat`;
  the spec states all arithmetic conditions over ordinary integers and all
  quantities appearing in the verified claims are bounded by the partition
  size and the 2^32 bounds carried as explicit hypotheses where the on-disk
  u32 encoding matters.  Bytes are `Nat` values, < 256 where encodings matter.
-/

set_option maxRecDepth 8000

namespace OctoFS

/-- Constants from file_system.h. -/
abbrev STORAGE_BLOCK_SIZE : Nat := 512

/-- Number of blocks holding the serialized directory. -/
abbrev DIR_DATA_NUM_BLOCKS : Nat := 2

/-- Size in bytes of the directory buffer. -/
abbrev DIR_DATA_SIZE : Nat := STORAGE_BLOCK_SIZE * DIR_DATA_NUM_BLOCKS

/-- Capacity of the file descriptor table. -/
abbrev MAX_NUM_FD : Nat := 64

/-- Maximum filename length accepted by the directory encoder. -/
abbrev MAX_FILENAME_SIZE : Nat := 256

/-- Open-existing mode. -/
abbrev FILE_OPEN_MODE : Nat := 0

/-- Open-or-create mode. -/
abbrev FILE_OPEN_CREATE_MODE : Nat := 1

/-- Error codes from file_system.h. -/
abbrev ERR_INVALID : Int := -2

/-- Error code: does not exist / no free descriptor. -/
abbrev ERR_EXIST : Int := -5

/-- Error code: out of memory / directory buffer full. -/
abbrev ERR_MEMORY : Int := -6

/-- Error code: no space (named ERR_FOUND in the source). -/
abbrev ERR_FOUND : Int := -7

/-- A byte buffer: byte index to byte value. -/
abbrev Buf : Type := Nat → Nat

/-- The block device: block index, then byte offset within the block, to byte
value.  The all-zero function models a blank device. -/
abbrev Disk : Type := Nat → Nat → Nat

/-- One in-memory file record (struct file).  `filename` holds the bytes of
the name without the terminating NUL. -/
structure File where
  filename : List Nat
  start_block : Nat
  num_blocks : Nat
  size : Nat
  dir_data_off : Nat
  opened : Bool
deriving DecidableEq

instance : Inhabited File := ⟨⟨[], 0, 0, 0, 0, false⟩⟩

/-- The whole file-system state: the module-level variables of
file_system.c.  `file_array` maps a descriptor to an index into `files`
(the C file list holds pointers; the model uses list positions). -/
structure FS where
  partition_num_blocks : Nat
  fd_bitmap : Nat → Bool
  file_array : Nat → Option Nat
  files : List File
  dir_data : Buf
  dir_data_ptr : Nat
  disk : Disk

/-- write_blocks: write `num_blocks` consecutive 512-byte blocks taken from
`data` starting at `start_block`.  The C loop writes one block file per
iteration; on the never-failing modeled device the cumulative effect is this
pointwise update. -/
def write_blocks (disk : Disk) (data : Buf) (start_block num_blocks : Nat) : Disk :=
  fun b o =>
    if start_block ≤ b ∧ b < start_block + num_blocks then
      data ((b - start_block) * STORAGE_BLOCK_SIZE + o)
    else disk b o

/-- read_blocks: the bytes of `num_blocks` consecutive blocks starting at
`start_block`, as a buffer.  Callers only consult indices below
`num_blocks * STORAGE_BLOCK_SIZE`. -/
def read_blocks (disk : Disk) (start_block : Nat) : Buf :=
  fun i => disk (start_block + i / STORAGE_BLOCK_SIZE) (i % STORAGE_BLOCK_SIZE)

/-- read_from_block: copy `read_size` bytes of block `block_num` starting at
`block_offset` into the buffer at destination offset `dst` (the C call site
passes the pointer `&data[dst]`).  Fails with 0 when the range leaves the
block. -/
def read_from_block (disk : Disk) (data : Buf) (dst block_num block_offset read_size : Nat) :
    Nat × Buf :=
  if block_offset + read_size > STORAGE_BLOCK_SIZE then (0, data)
  else
    (read_size,
      fun j =>
        if dst ≤ j ∧ j < dst + read_size then disk block_num (block_offset + (j - dst))
        else data j)

/-- write_to_block: partial-block read-modify-write.  Patches bytes
`[block_offset, block_offset + write_size)` of block `block_num` with the
bytes of `data` starting at source offset `src` (the C call site passes
`&data[src]`); the bytes of the block outside the patched range are read
back and rewritten unchanged.  Fails with 0 when the range leaves the
block. -/
def write_to_block (disk : Disk) (data : Buf) (src block_num block_offset write_size : Nat) :
    Nat × Disk :=
  if block_offset + write_size > STORAGE_BLOCK_SIZE then (0, disk)
  else
    (write_size,
      fun b o =>
        if b = block_num ∧ block_offset ≤ o ∧ o < block_offset + write_size then
          data (src + (o - block_offset))
        else disk b o)

/-- Zero out `n` consecutive blocks starting at `start` (the per-block
`write_blocks(zero_buf, ., 1)` loops in the expand functions). -/
def zero_fill (disk : Disk) (start n : Nat) : Disk :=
  write_blocks disk (fun _ => 0) start n

/-- Point update of a byte buffer. -/
def setByte (d : Buf) (i v : Nat) : Buf :=
  fun j => if j = i then v else d j

/-- Store a 16-bit little-endian value at offset `i`
(`*((uint16_t *) &dir_data[i]) = v` on the little-endian reference host). -/
def setU16 (d : Buf) (i v : Nat) : Buf :=
  setByte (setByte d i (v % 256)) (i + 1) (v / 256 % 256)

/-- Store a 32-bit little-endian value at offset `i`. -/
def setU32 (d : Buf) (i v : Nat) : Buf :=
  setByte (setByte (setByte (setByte d i (v % 256)) (i + 1) (v / 256 % 256))
    (i + 2) (v / 65536 % 256)) (i + 3) (v / 16777216 % 256)

/-- Read a 16-bit little-endian value at offset `i`. -/
def getU16 (d : Buf) (i : Nat) : Nat :=
  d i + 256 * d (i + 1)

/-- Read a 32-bit little-endian value at offset `i`. -/
def getU32 (d : Buf) (i : Nat) : Nat :=
  d i + 256 * d (i + 1) + 65536 * d (i + 2) + 16777216 * d (i + 3)

/-- strcpy of a NUL-free name into the buffer at offset `i`: the name's bytes
followed by a single NUL byte. -/
def strcpyDir : Buf → Nat → List Nat → Buf
  | d, i, [] => setByte d i 0
  | d, i, b :: bs => strcpyDir (setByte d i b) (i + 1) bs

/-- strcpy out of the buffer: read bytes starting at offset `i` up to (and
not including) the first NUL byte.  The C strcpy is unbounded; `fuel` bounds
the scan (call sites pass DIR_DATA_SIZE, larger than any encodable name). -/
def readCString (d : Buf) : Nat → Nat → List Nat
  | _, 0 => []
  | i, fuel + 1 => if d i = 0 then [] else d i :: readCString d (i + 1) fuel

/-- update_file_in_directory: re-encode one record in place at its
`dir_data_off`.  Returns the error code together with the updated directory
buffer.  `strlen(file->filename)` is the length of the NUL-free name. -/
def update_file_in_directory (d : Buf) (f : File) : Int × Buf :=
  let off := f.dir_data_off
  let n := f.filename.length
  if n > MAX_FILENAME_SIZE then (ERR_INVALID, d)
  else if off + n + 15 > DIR_DATA_SIZE then (ERR_MEMORY, d)
  else
    let d1 := setU16 d off n
    let d2 := strcpyDir d1 (off + 2) f.filename
    let d3 := setU32 d2 (off + 2 + n + 1) f.start_block
    let d4 := setU32 d3 (off + 2 + n + 1 + 4) f.num_blocks
    let d5 := setU32 d4 (off + 2 + n + 1 + 8) f.size
    (0, d5)

/-- flush_dir_data_to_storage: write the directory buffer to blocks 0 and 1. -/
def flush_dir_data_to_storage (s : FS) : FS :=
  { s with disk := write_blocks s.disk s.dir_data 0 DIR_DATA_NUM_BLOCKS }

/-- read_dir_data_from_storage: load blocks 0 and 1 into the directory
buffer. -/
def read_dir_data_from_storage (s : FS) : FS :=
  { s with dir_data := read_blocks s.disk 0 }

/-- add_file_to_directory: stamp the record with the append cursor, encode
it, then advance the cursor, bump the persisted file count and flush.
Returns the error code, the stamped record and the updated state; on error
the state is returned unchanged. -/
def add_file_to_directory (s : FS) (f : File) : Int × File × FS :=
  let f1 := { f with dir_data_off := s.dir_data_ptr }
  let r := update_file_in_directory s.dir_data f1
  if r.1 ≠ 0 then (r.1, f1, s)
  else
    let d2 := setU16 r.2 4 (getU16 r.2 4 + 1)
    (0, f1, flush_dir_data_to_storage
      { s with dir_data := d2, dir_data_ptr := s.dir_data_ptr + f1.filename.length + 15 })

/-- The loop of expand_existing_file: does any known file start inside
`[lo, hi)`? -/
def blocked_tail (fl : List File) (lo hi : Nat) : Bool :=
  fl.any fun g => decide (lo ≤ g.start_block ∧ g.start_block < hi)

/-- expand_existing_file: grow the extent of `files[i]` by `needed_blocks`
at its tail; fails with ERR_FOUND if some file in the list starts inside the
tail range, or if the new end reaches the partition end. -/
def expand_existing_file (s : FS) (i needed_blocks : Nat) : Int × FS :=
  let f := s.files.getD i default
  let lo := f.start_block + f.num_blocks
  if blocked_tail s.files lo (lo + needed_blocks) then (ERR_FOUND, s)
  else if lo + needed_blocks ≥ s.partition_num_blocks then (ERR_FOUND, s)
  else
    (0, { s with
      disk := zero_fill s.disk lo needed_blocks,
      files := s.files.set i { f with num_blocks := f.num_blocks + needed_blocks } })

/-- The scan of expand_empty_file: fold the file list, replacing the
candidate start block by a file's end whenever that file starts at or after
the current candidate; starts at DIR_DATA_NUM_BLOCKS. -/
def empty_file_start (fl : List File) : Nat :=
  fl.foldl
    (fun sb g => if g.start_block ≥ sb then g.start_block + g.num_blocks else sb)
    DIR_DATA_NUM_BLOCKS

/-- expand_empty_file: allocate a fresh extent for `files[i]` after the last
file; fails with ERR_FOUND when the new end reaches the partition end. -/
def expand_empty_file (s : FS) (i needed_blocks : Nat) : Int × FS :=
  let sb := empty_file_start s.files
  if sb + needed_blocks ≥ s.partition_num_blocks then (ERR_FOUND, s)
  else
    let f := s.files.getD i default
    (0, { s with
      disk := zero_fill s.disk sb needed_blocks,
      files := s.files.set i { f with start_block := sb, num_blocks := needed_blocks } })

/-- expand_file_size: grow `files[i]` so it can hold `sz` bytes.  A no-op
when the file is already large enough; otherwise allocates blocks when the
leftover space in the last block does not suffice, then records the new size
and re-encodes and flushes the directory entry.  Mirrors the goto-update
structure of the C function, including the flush on a failed directory
update. -/
def expand_file_size (s : FS) (i sz : Nat) : Int × FS :=
  let f := s.files.getD i default
  if f.size ≥ sz then (0, s)
  else
    let needed_size := if f.size = 0 then sz else sz - f.size
    let leftover := STORAGE_BLOCK_SIZE - f.size % STORAGE_BLOCK_SIZE
    let needed_blocks :=
      needed_size / STORAGE_BLOCK_SIZE + (if needed_size % STORAGE_BLOCK_SIZE ≠ 0 then 1 else 0)
    let r :=
      if leftover ≠ STORAGE_BLOCK_SIZE ∧ leftover ≥ needed_size then (0, s)
      else if f.size = 0 then expand_empty_file s i needed_blocks
      else expand_existing_file s i needed_blocks
    if r.1 ≠ 0 then r
    else
      let s1 := r.2
      let f1 := s1.files.getD i default
      let files2 := s1.files.set i { f1 with size := sz }
      let r2 := update_file_in_directory s1.dir_data (files2.getD i default)
      (r2.1, flush_dir_data_to_storage { s1 with files := files2, dir_data := r2.2 })

/-- get_unused_fd's bitmap scan: first bit index `k < rem + start` at or
after `start` whose bit is clear (the C nested byte/bit loops scan the
bitmap in ascending bit index, least significant bit of each byte first). -/
def scan_clear_bit (bm : Nat → Bool) : Nat → Nat → Option Nat
  | _, 0 => none
  | k, rem + 1 => if bm k then scan_clear_bit bm (k + 1) rem else some k

/-- get_unused_fd: find the lowest clear bit among the MAX_NUM_FD bitmap
bits, set it, and return that bit index plus one; ERR_EXIST when every bit
is set. -/
def get_unused_fd (bm : Nat → Bool) : Int × (Nat → Bool) :=
  match scan_clear_bit bm 0 MAX_NUM_FD with
  | some k => ((k : Int) + 1, fun j => if j = k then true else bm j)
  | none => (ERR_EXIST, bm)

/-- mark_fd_as_unused: clear the bit for descriptor `fd0` (bit index
`fd0 - 1`); out-of-range descriptors are ignored with a diagnostic. -/
def mark_fd_as_unused (bm : Nat → Bool) (fd0 : Nat) : Nat → Bool :=
  let fd := fd0 - 1
  if fd ≥ MAX_NUM_FD then bm
  else fun j => if j = fd then false else bm j

/-- The file-list search loop of file_system_open_file: walk the list in
order; on a name match of an already-opened record return immediately with
an error (the C `return 0` inside the loop), otherwise remember the match
and keep scanning.  `i` is the position of the head of the remaining list,
`acc` the last match so far. -/
def find_file (name : List Nat) : List File → Nat → Option Nat → Except Unit (Option Nat)
  | [], _, acc => .ok acc
  | f :: rest, i, acc =>
    if f.filename = name then
      if f.opened then .error () else find_file name rest (i + 1) (some i)
    else find_file name rest (i + 1) acc

/-- file_system_open_file.  Returns the descriptor (0 on failure) and the
new state.  A record malloc'd by the create path leaves `opened`
uninitialized in the C; the model takes it as false, the benign value (the
flag is assigned before the descriptor is installed on every path that
returns a descriptor). -/
def file_system_open_file (s : FS) (filename : List Nat) (mode : Nat) : Nat × FS :=
  if ¬(mode = FILE_OPEN_MODE ∨ mode = FILE_OPEN_CREATE_MODE) then (0, s)
  else
    match find_file filename s.files 0 none with
    | .error _ => (0, s)
    | .ok found =>
      let step : Option Nat × FS :=
        match found with
        | some i => (some i, s)
        | none =>
          if mode = FILE_OPEN_CREATE_MODE then
            let f : File :=
              { filename := filename, start_block := 0, num_blocks := 0, size := 0,
                dir_data_off := 0, opened := false }
            let r := add_file_to_directory s f
            if r.1 ≠ 0 then (none, s)
            else (some r.2.2.files.length, { r.2.2 with files := r.2.2.files ++ [r.2.1] })
          else (none, s)
      match step.1 with
      | none => (0, step.2)
      | some i =>
        let s1 := step.2
        let r := get_unused_fd s1.fd_bitmap
        let s2 := { s1 with fd_bitmap := r.2 }
        if r.1 < 0 then (0, s2)
        else
          let fd := r.1.toNat
          if fd = 0 ∨ fd ≥ MAX_NUM_FD then (0, s2)
          else if (s2.file_array fd).isSome then (0, s2)
          else
            (fd, { s2 with
              file_array := fun j => if j = fd then some i else s2.file_array j,
              files := s2.files.set i { s2.files.getD i default with opened := true } })

/-- The write loop of file_system_write_to_file.  `acc` is written_size,
`bn` / `boff` the block-local coordinates, `next` the next chunk size; the
fuel bounds the iteration count (every iteration of the C loop advances
written_size by at least one byte, so `sz` iterations suffice, and running
out of fuel exactly at `acc = sz` returns the same pair as the loop exit). -/
def write_loop (data : Buf) (base sz : Nat) : Nat → Disk → Nat → Nat → Nat → Nat → Nat × Disk
  | 0, disk, _, _, acc, _ => (acc, disk)
  | fuel + 1, disk, bn, boff, acc, next =>
    if acc < sz then
      let r := write_to_block disk data acc (base + bn) boff next
      if r.1 ≠ next then (acc + r.1, r.2)
      else
        let acc2 := acc + next
        let boff2 := 0
        let next2 :=
          if sz - acc2 ≥ STORAGE_BLOCK_SIZE then STORAGE_BLOCK_SIZE - boff2 else sz - acc2
        write_loop data base sz fuel r.2 (bn + 1) boff2 acc2 next2
    else (acc, disk)

/-- file_system_write_to_file.  Returns bytes written and the new state. -/
def file_system_write_to_file (s : FS) (fd : Nat) (data : Buf) (sz off : Nat) : Nat × FS :=
  if fd = 0 ∨ fd ≥ MAX_NUM_FD then (0, s)
  else
    match s.file_array fd with
    | none => (0, s)
    | some i =>
      let f := s.files.getD i default
      if f.opened = false then (0, s)
      else if f.size < off + sz ∧ off > f.size then (0, s)
      else
        let s1 := if f.size < off + sz then (expand_file_size s i (off + sz)).2 else s
        let f1 := s1.files.getD i default
        if off ≥ f1.size then (0, s1)
        else
          let sz1 := if f1.size < off + sz then f1.size - off else sz
          let boff := off % STORAGE_BLOCK_SIZE
          let next0 := STORAGE_BLOCK_SIZE - boff
          let next1 := if next0 > sz1 then sz1 else next0
          let r := write_loop data f1.start_block sz1 sz1 s1.disk
            (off / STORAGE_BLOCK_SIZE) boff 0 next1
          (r.1, { s1 with disk := r.2 })

/-- The read loop of file_system_read_from_file; mirrors `write_loop` with
`read_from_block`, accumulating into the destination buffer. -/
def read_loop (disk : Disk) (base sz : Nat) : Nat → Buf → Nat → Nat → Nat → Nat → Nat × Buf
  | 0, data, _, _, acc, _ => (acc, data)
  | fuel + 1, data, bn, boff, acc, next =>
    if acc < sz then
      let r := read_from_block disk data acc (base + bn) boff next
      if r.1 ≠ next then (acc + r.1, r.2)
      else
        let acc2 := acc + next
        let boff2 := 0
        let next2 :=
          if sz - acc2 ≥ STORAGE_BLOCK_SIZE then STORAGE_BLOCK_SIZE - boff2 else sz - acc2
        read_loop disk base sz fuel r.2 (bn + 1) boff2 acc2 next2
    else (acc, data)

/-- file_system_read_from_file.  Returns bytes read and the filled buffer;
the file-system state is unchanged (on the modeled device the lazy zero-fill
of absent blocks does not change the disk function). -/
def file_system_read_from_file (s : FS) (fd : Nat) (data : Buf) (sz off : Nat) : Nat × Buf :=
  if fd = 0 ∨ fd ≥ MAX_NUM_FD then (0, data)
  else
    match s.file_array fd with
    | none => (0, data)
    | some i =>
      let f := s.files.getD i default
      if f.opened = false then (0, data)
      else if off ≥ f.size then (0, data)
      else
        let sz1 := if f.size < off + sz then f.size - off else sz
        let boff := off % STORAGE_BLOCK_SIZE
        let next0 := STORAGE_BLOCK_SIZE - boff
        let next1 := if next0 > sz1 then sz1 else next0
        read_loop s.disk f.start_block sz1 sz1 data (off / STORAGE_BLOCK_SIZE) boff 0 next1

/-- file_system_close_file. -/
def file_system_close_file (s : FS) (fd : Nat) : Int × FS :=
  if fd = 0 ∨ fd ≥ MAX_NUM_FD then (ERR_INVALID, s)
  else
    match s.file_array fd with
    | none => (ERR_INVALID, s)
    | some i =>
      let f := s.files.getD i default
      if f.opened = false then (ERR_INVALID, s)
      else
        (0, { s with
          files := s.files.set i { f with opened := false },
          file_array := fun j => if j = fd then none else s.file_array j,
          fd_bitmap := mark_fd_as_unused s.fd_bitmap fd })

/-- The directory-parsing loop of initialize_file_system: parse up to
`count` records starting at buffer offset `ptr`, stopping early on any of
the three bound checks; returns the parsed records (with `opened := false`)
and the final append cursor. -/
def parse_dir (d : Buf) : Nat → Nat → List File × Nat
  | 0, ptr => ([], ptr)
  | count + 1, ptr =>
    if ptr + 2 > DIR_DATA_SIZE then ([], ptr)
    else
      let fnsz := getU16 d ptr
      if ptr + fnsz + 15 > DIR_DATA_SIZE then ([], ptr)
      else if fnsz > MAX_FILENAME_SIZE then ([], ptr + 2)
      else
        let f : File :=
          { filename := readCString d (ptr + 2) DIR_DATA_SIZE,
            start_block := getU32 d (ptr + 2 + fnsz + 1),
            num_blocks := getU32 d (ptr + 2 + fnsz + 1 + 4),
            size := getU32 d (ptr + 2 + fnsz + 1 + 8),
            dir_data_off := ptr, opened := false }
        let r := parse_dir d count (ptr + fnsz + 15)
        (f :: r.1, r.2)

/-- initialize_file_system (renamed: `init_file_system`).  Loads the
directory from the device; when the signature bytes `$`, `%`, `^`, `&`
(36, 37, 94, 38) are present the records are parsed, otherwise a fresh
directory is created and flushed.  The MAX_NUM_FD-divisible-by-8 fatal
check passes for the fixed MAX_NUM_FD = 64. -/
def init_file_system (disk : Disk) (pnb : Nat) : FS :=
  let bm : Nat → Bool := fun j => j == 0
  let d := read_blocks disk 0
  if d 0 = 36 ∧ d 1 = 37 ∧ d 2 = 94 ∧ d 3 = 38 then
    let r := parse_dir d (getU16 d 4) 6
    { partition_num_blocks := pnb, fd_bitmap := bm, file_array := fun _ => none,
      files := r.1, dir_data := d, dir_data_ptr := r.2, disk := disk }
  else
    let d1 := setByte (setByte (setByte (setByte (setByte (setByte d 0 36) 1 37) 2 94) 3 38)
      4 0) 5 0
    flush_dir_data_to_storage
      { partition_num_blocks := pnb, fd_bitmap := bm, file_array := fun _ => none,
        files := [], dir_data := d1, dir_data_ptr := 6, disk := disk }

/-- close_file_system: flush the directory buffer. -/
def close_file_system (s : FS) : FS :=
  flush_dir_data_to_storage s

/-- One public API call, for the reachability relation. -/
inductive FSOp where
  | openf (filename : List Nat) (mode : Nat)
  | write (fd : Nat) (data : Buf) (sz off : Nat)
  | readf (fd sz off : Nat)
  | closef (fd : Nat)

/-- The state transformer of one API call.  A read never changes the state
(see `file_system_read_from_file`). -/
def applyOp (s : FS) : FSOp → FS
  | .openf n m => (file_system_open_file s n m).2
  | .write fd d sz off => (file_system_write_to_file s fd d sz off).2
  | .readf _ _ _ => s
  | .closef fd => (file_system_close_file s fd).2

/-- Run a sequence of API calls. -/
def run (s : FS) (ops : List FSOp) : FS :=
  List.foldl applyOp s ops

/-- The blank block device: every block reads as zero bytes. -/
def blankDisk : Disk := fun _ _ => 0

/-- States reachable from a first-ever initialize on a blank device by a
sequence of open / write / read / close calls. -/
def Reachable (s : FS) : Prop :=
  ∃ p ops, s = run (init_file_system blankDisk p) ops

/-- Two records own disjoint block ranges (trivially so when one is
empty). -/
def Disjoint2 (a b : File) : Prop :=
  a.start_block + a.num_blocks ≤ b.start_block ∨ b.start_block + b.num_blocks ≤ a.start_block

/-- Per-record extent discipline: an empty record sits at block 0, a
non-empty one starts at or after the directory blocks. -/
def FileOk (f : File) : Prop :=
  (f.num_blocks = 0 → f.start_block = 0) ∧ (f.num_blocks ≠ 0 → DIR_DATA_NUM_BLOCKS ≤ f.start_block)

/-- The extent invariant on the file list: per-record discipline and
pairwise disjointness of the records at distinct positions. -/
def ExtInv (fl : List File) : Prop :=
  (∀ f ∈ fl, FileOk f) ∧
  ∀ i j, i < fl.length → j < fl.length → i ≠ j →
    Disjoint2 (fl.getD i default) (fl.getD j default)

/-- The start block the spec prescribes for a fresh allocation:
max(DIR_BLOCKS, maximum over all known files of f.start_block +
f.num_blocks).  Stated from the spec's words, for comparison with the
code's `empty_file_start` scan. -/
def spec_alloc_start (fl : List File) : Nat :=
  fl.foldl (fun m g => max m (g.start_block + g.num_blocks)) DIR_DATA_NUM_BLOCKS

/-- The failure condition claim C4 states for tail expansion: some OTHER
file starts inside the tail range `[lo, hi)`.  Stated from the spec's
words. -/
def spec_tail_blocked (fl : List File) (i lo hi : Nat) : Prop :=
  ∃ j, j < fl.length ∧ j ≠ i ∧
    lo ≤ (fl.getD j default).start_block ∧ (fl.getD j default).start_block < hi

/-- Forget the in-memory open flag (parsing always yields closed
records). -/
def resetOpened (f : File) : File :=
  { f with opened := false }

/-- Serialized size of one record: filename_size + 15. -/
def recSize (f : File) : Nat :=
  f.filename.length + 15

/-- The records' stored directory offsets follow the append discipline
starting from cursor `o`. -/
def offsetsOk : List File → Nat → Prop
  | [], _ => True
  | f :: rest, o => f.dir_data_off = o ∧ offsetsOk rest (o + recSize f)

/-- The append cursor after serializing the list from cursor `o`. -/
def endPtr : List File → Nat → Nat
  | [], o => o
  | f :: rest, o => endPtr rest (o + recSize f)

/-- Well-formedness of one record as the directory stores it: bounded
NUL-free byte-valued filename and u32-sized fields. -/
def RecordWf (f : File) : Prop :=
  f.filename.length ≤ MAX_FILENAME_SIZE ∧
  (∀ b ∈ f.filename, b ≠ 0 ∧ b < 256) ∧
  f.start_block < 4294967296 ∧ f.num_blocks < 4294967296 ∧ f.size < 4294967296

/-- The directory invariants of the spec for an in-memory list: record
well-formedness, consistent dir_offsets from 6, and the whole encoding
within DIR_DATA_SIZE. -/
def DirWf (fl : List File) : Prop :=
  (∀ f ∈ fl, RecordWf f) ∧ offsetsOk fl 6 ∧ endPtr fl 6 ≤ DIR_DATA_SIZE

/-- The buffer returned by a record update (the encoding of `f` over `d`
when the bounds checks pass, `d` itself otherwise). -/
def encode_record (d : Buf) (f : File) : Buf :=
  (update_file_in_directory d f).2

/-- Serialize every record of the list into the buffer at its own
dir_data_off, in list order (iterated update_file_in_directory). -/
def write_all_records : Buf → List File → Buf
  | d, [] => d
  | d, f :: rest => write_all_records (encode_record d f) rest

/-- The directory header: signature bytes and the 16-bit file count. -/
def dir_header (d : Buf) (count : Nat) : Buf :=
  setU16 (setByte (setByte (setByte (setByte d 0 36) 1 37) 2 94) 3 38) 4 count

/-- Byte-level statement that record `f` is encoded at its dir_data_off in
buffer `d`: length prefix, name bytes, NUL terminator and the three u32
fields, all read back correctly. -/
def EncodedAt (d : Buf) (f : File) : Prop :=
  getU16 d f.dir_data_off = f.filename.length ∧
  (∀ k, k < f.filename.length → d (f.dir_data_off + 2 + k) = f.filename.getD k 0) ∧
  d (f.dir_data_off + 2 + f.filename.length) = 0 ∧
  getU32 d (f.dir_data_off + 2 + f.filename.length + 1) = f.start_block ∧
  getU32 d (f.dir_data_off + 2 + f.filename.length + 1 + 4) = f.num_blocks ∧
  getU32 d (f.dir_data_off + 2 + f.filename.length + 1 + 8) = f.size

/-- The descriptor-table invariant: an installed descriptor is in
[2, MAX_NUM_FD), references a live opened record with its bitmap bit set;
no two descriptors reference the same record; and the reserved bit 0 stays
set. -/
def FdInv (s : FS) : Prop :=
  (∀ d i, s.file_array d = some i →
    2 ≤ d ∧ d < MAX_NUM_FD ∧ i < s.files.length ∧
      (s.files.getD i default).opened = true ∧ s.fd_bitmap (d - 1) = true) ∧
  (∀ d d' i, s.file_array d = some i → s.file_array d' = some i → d = d') ∧
  s.fd_bitmap 0 = true

/-- A one-record state used as the concrete input of the C4 counterexample:
partition of 4 blocks, one closed file occupying block 2. -/
def c4State : FS :=
  { partition_num_blocks := 4,
    fd_bitmap := fun j => j == 0,
    file_array := fun _ => none,
    files := [{ filename := [97], start_block := 2, num_blocks := 1, size := 512,
                dir_data_off := 6, opened := false }],
    dir_data := fun _ => 0,
    dir_data_ptr := 22,
    disk := blankDisk }

/-- An operation sequence producing two allocated files, used as a concrete
reachable state. -/
def c2ops : List FSOp :=
  [FSOp.openf [97] 1, FSOp.write 2 (fun _ => 65) 1 0, FSOp.closef 2,
   FSOp.openf [98] 1, FSOp.write 2 (fun _ => 66) 1 0]

/-- A one-record state holding a single empty file, for exercising the
empty-file allocator. -/
def c3State : FS :=
  { partition_num_blocks := 390,
    fd_bitmap := fun j => j == 0,
    file_array := fun _ => none,
    files := [{ filename := [97], start_block := 0, num_blocks := 0, size := 0,
                dir_data_off := 6, opened := false }],
    dir_data := fun _ => 0,
    dir_data_ptr := 22,
    disk := blankDisk }

/-- A state whose descriptor bitmap has every bit below 63 set and bit 63
clear, with one closed file, for exercising descriptor exhaustion. -/
def c9State : FS :=
  { partition_num_blocks := 390,
    fd_bitmap := fun j => decide (j < 63),
    file_array := fun _ => none,
    files := [{ filename := [97], start_block := 2, num_blocks := 1, size := 512,
                dir_data_off := 6, opened := false }],
    dir_data := fun _ => 0,
    dir_data_ptr := 22,
    disk := blankDisk }

/-- A state whose directory append cursor is too close to DIR_DATA_SIZE for
another record, for exercising a failed create. -/
def c10State : FS :=
  { partition_num_blocks := 390,
    fd_bitmap := fun j => j == 0,
    file_array := fun _ => none,
    files := [{ filename := [97], start_block := 2, num_blocks := 1, size := 512,
                dir_data_off := 6, opened := false }],
    dir_data := fun _ => 0,
    dir_data_ptr := 1020,
    disk := blankDisk }

/-- A two-record well-formed directory list, a concrete input for the
serialize/parse round trip. -/
def c6List : List File :=
  [{ filename := [104, 105], start_block := 2, num_blocks := 1, size := 10,
     dir_data_off := 6, opened := true },
   { filename := [106], start_block := 3, num_blocks := 2, size := 700,
     dir_data_off := 23, opened := false }]

/-- The directory buffer a first-ever initialize creates over the blank
device: the signature bytes and a zero record count on the zero buffer. -/
def c1Dir0 : Buf :=
  setByte (setByte (setByte (setByte (setByte (setByte (read_blocks blankDisk 0)
    0 36) 1 37) 2 94) 3 38) 4 0) 5 0

/-- The block count expand_file_size computes for `n` fresh bytes in an
empty file. -/
def c1NB (n : Nat) : Nat :=
  n / STORAGE_BLOCK_SIZE + (if n % STORAGE_BLOCK_SIZE ≠ 0 then 1 else 0)

/-- The directory buffer after create appends the fresh zero-extent record
named `name` and bumps the count. -/
def c1DirA (name : List Nat) : Buf :=
  setU16 (encode_record c1Dir0
      { filename := name, start_block := 0, num_blocks := 0, size := 0,
        dir_data_off := 6, opened := false }) 4
    (getU16 (encode_record c1Dir0
      { filename := name, start_block := 0, num_blocks := 0, size := 0,
        dir_data_off := 6, opened := false }) 4 + 1)

/-- The directory buffer after the first write re-encodes the record with
its allocated extent and new size. -/
def c1DirB (name : List Nat) (n : Nat) : Buf :=
  encode_record (c1DirA name)
    { filename := name, start_block := 2, num_blocks := c1NB n, size := n,
      dir_data_off := 6, opened := true }

/-- The state after open-create of `name` on a freshly initialized blank
device. -/
def c1S1 (name : List Nat) (p : Nat) : FS :=
  { partition_num_blocks := p,
    fd_bitmap := fun j => if j = 1 then true else (j == 0 : Bool),
    file_array := fun j => if j = 2 then some 0 else none,
    files := [{ filename := name, start_block := 0, num_blocks := 0, size := 0,
                dir_data_off := 6, opened := true }],
    dir_data := c1DirA name,
    dir_data_ptr := 6 + name.length + 15,
    disk := write_blocks (write_blocks blankDisk c1Dir0 0 DIR_DATA_NUM_BLOCKS)
      (c1DirA name) 0 DIR_DATA_NUM_BLOCKS }

/-- The device contents after the first write: the write loop's output over
the zero-filled fresh extent and the flushed directory. -/
def c1Disk3 (name : List Nat) (data : Buf) (n p : Nat) : Disk :=
  (write_loop data 2 n n
    (write_blocks (zero_fill (c1S1 name p).disk 2 (c1NB n)) (c1DirB name n) 0
      DIR_DATA_NUM_BLOCKS)
    0 0 0 (min 512 (n - 0))).2

/-- The state after writing `n` bytes at offset 0 through descriptor 2 of
the freshly created file. -/
def c1S3 (name : List Nat) (data : Buf) (n p : Nat) : FS :=
  { c1S1 name p with
    files := [{ filename := name, start_block := 2, num_blocks := c1NB n, size := n,
                dir_data_off := 6, opened := true }],
    dir_data := c1DirB name n,
    disk := c1Disk3 name data n p }

/-- The device contents after close and shutdown flush the directory. -/
def c1DiskFinal (name : List Nat) (data : Buf) (n p : Nat) : Disk :=
  write_blocks (c1Disk3 name data n p) (c1DirB name n) 0 DIR_DATA_NUM_BLOCKS

/-- The state a second initialize parses back from the persisted device. -/
def c1S5 (name : List Nat) (data : Buf) (n p : Nat) : FS :=
  { partition_num_blocks := p,
    fd_bitmap := fun j => j == 0,
    file_array := fun _ => none,
    files := [{ filename := name, start_block := 2, num_blocks := c1NB n, size := n,
                dir_data_off := 6, opened := false }],
    dir_data := read_blocks (c1DiskFinal name data n p) 0,
    dir_data_ptr := 6 + (name.length + 15),
    disk := c1DiskFinal name data n p }

/-- The state after re-opening `name` on the re-initialized system. -/
def c1S6 (name : List Nat) (data : Buf) (n p : Nat) : FS :=
  { c1S5 name data n p with
    fd_bitmap := fun j => if j = 1 then true else (c1S5 name data n p).fd_bitmap j,
    file_array := fun j => if j = 2 then some 0 else (c1S5 name data n p).file_array j,
    files := [{ filename := name, start_block := 2, num_blocks := c1NB n, size := n,
                dir_data_off := 6, opened := true }] }

/-! Helper lemmas: list indexing. -/

theorem getD_set_self : ∀ (l : List File) (i : Nat) (a : File), i < l.length →
    (l.set i a).getD i default = a := by
  intro l
  induction l with
  | nil => intro i a h; simp at h
  | cons x xs ih =>
    intro i a h
    cases i with
    | zero => rfl
    | succ n =>
      simp only [List.set, List.getD, List.get?]
      exact ih n a (by simpa using h)

theorem getD_set_ne : ∀ (l : List File) (i j : Nat) (a : File), i ≠ j →
    (l.set i a).getD j default = l.getD j default := by
  intro l
  induction l with
  | nil => intro i j a _; cases i <;> rfl
  | cons x xs ih =>
    intro i j a hij
    cases i with
    | zero =>
      cases j with
      | zero => exact absurd rfl hij
      | succ m => rfl
    | succ n =>
      cases j with
      | zero => rfl
      | succ m =>
        simp only [List.set, List.getD, List.get?]
        exact ih n m a (fun h => hij (by rw [h]))

theorem getD_append_lt : ∀ (l l' : List File) (j : Nat), j < l.length →
    (l ++ l').getD j default = l.getD j default := by
  intro l
  induction l with
  | nil => intro l' j h; simp at h
  | cons x xs ih =>
    intro l' j h
    cases j with
    | zero => rfl
    | succ m => exact ih l' m (by simpa using h)

theorem getD_append_len : ∀ (l : List File) (a : File),
    (l ++ [a]).getD l.length default = a := by
  intro l
  induction l with
  | nil => intro a; rfl
  | cons x xs ih => intro a; exact ih a

theorem getD_mem : ∀ (l : List File) (i : Nat), i < l.length → l.getD i default ∈ l := by
  intro l
  induction l with
  | nil => intro i h; simp at h
  | cons x xs ih =>
    intro i h
    cases i with
    | zero => exact List.mem_cons_self x xs
    | succ m => exact List.mem_cons_of_mem x (ih m (by simpa using h))

theorem index_of_mem : ∀ (l : List File) (a : File), a ∈ l →
    ∃ i, i < l.length ∧ l.getD i default = a := by
  intro l
  induction l with
  | nil => intro a h; simp at h
  | cons x xs ih =>
    intro a h
    rcases List.mem_cons.mp h with h1 | h2
    · exact ⟨0, by simp, h1.symm⟩
    · rcases ih a h2 with ⟨i, hi, he⟩
      exact ⟨i + 1, by simpa using hi, he⟩

theorem mem_set_cases : ∀ (l : List File) (i : Nat) (a x : File),
    x ∈ l.set i a → x = a ∨ x ∈ l := by
  intro l
  induction l with
  | nil => intro i a x h; simp at h
  | cons y ys ih =>
    intro i a x h
    cases i with
    | zero =>
      rcases List.mem_cons.mp h with h1 | h2
      · exact Or.inl h1
      · exact Or.inr (List.mem_cons_of_mem y h2)
    | succ n =>
      rcases List.mem_cons.mp h with h1 | h2
      · exact Or.inr (by rw [h1]; exact List.mem_cons_self y ys)
      · rcases ih n a x h2 with h3 | h4
        · exact Or.inl h3
        · exact Or.inr (List.mem_cons_of_mem y h4)

/-! Helper lemmas: byte buffers. -/

theorem setByte_self (d : Buf) (i v : Nat) : setByte d i v i = v := by
  simp [setByte]

theorem setByte_other (d : Buf) (i v j : Nat) (h : j ≠ i) : setByte d i v j = d j := by
  simp [setByte, h]

theorem setU16_outside (d : Buf) (i v j : Nat) (h : j < i ∨ i + 2 ≤ j) :
    setU16 d i v j = d j := by
  have h1 : j ≠ i := by omega
  have h2 : j ≠ i + 1 := by omega
  simp [setU16, setByte, h1, h2]

theorem setU32_outside (d : Buf) (i v j : Nat) (h : j < i ∨ i + 4 ≤ j) :
    setU32 d i v j = d j := by
  have h1 : j ≠ i := by omega
  have h2 : j ≠ i + 1 := by omega
  have h3 : j ≠ i + 2 := by omega
  have h4 : j ≠ i + 3 := by omega
  simp [setU32, setByte, h1, h2, h3, h4]

theorem getU16_setU16 (d : Buf) (i v : Nat) (h : v < 65536) :
    getU16 (setU16 d i v) i = v := by
  have h1 : (i : Nat) ≠ i + 1 := by omega
  simp only [getU16, setU16, setByte_self, setByte_other _ _ _ _ h1]
  omega

theorem getU32_setU32 (d : Buf) (i v : Nat) (h : v < 4294967296) :
    getU32 (setU32 d i v) i = v := by
  have h1 : (i : Nat) ≠ i + 1 := by omega
  have h2 : (i : Nat) ≠ i + 2 := by omega
  have h3 : (i : Nat) ≠ i + 3 := by omega
  have h4 : (i + 1 : Nat) ≠ i + 2 := by omega
  have h5 : (i + 1 : Nat) ≠ i + 3 := by omega
  have h6 : (i + 2 : Nat) ≠ i + 3 := by omega
  simp only [getU32, setU32, setByte_self, setByte_other _ _ _ _ h1,
    setByte_other _ _ _ _ h2, setByte_other _ _ _ _ h3, setByte_other _ _ _ _ h4,
    setByte_other _ _ _ _ h5, setByte_other _ _ _ _ h6]
  omega

theorem getU16_congr (d d' : Buf) (i : Nat) (h0 : d' i = d i) (h1 : d' (i + 1) = d (i + 1)) :
    getU16 d' i = getU16 d i := by
  simp [getU16, h0, h1]

theorem getU32_congr (d d' : Buf) (i : Nat) (h0 : d' i = d i) (h1 : d' (i + 1) = d (i + 1))
    (h2 : d' (i + 2) = d (i + 2)) (h3 : d' (i + 3) = d (i + 3)) :
    getU32 d' i = getU32 d i := by
  simp [getU32, h0, h1, h2, h3]

theorem strcpyDir_outside : ∀ (name : List Nat) (d : Buf) (i j : Nat),
    j < i ∨ i + name.length + 1 ≤ j → strcpyDir d i name j = d j := by
  intro name
  induction name with
  | nil =>
    intro d i j h
    simp only [List.length] at h
    exact setByte_other d i 0 j (by omega)
  | cons b bs ih =>
    intro d i j h
    simp only [List.length] at h
    have := ih (setByte d i b) (i + 1) j (by omega)
    rw [strcpyDir, this, setByte_other d i b j (by omega)]

theorem strcpyDir_at : ∀ (name : List Nat) (d : Buf) (i k : Nat), k < name.length →
    strcpyDir d i name (i + k) = name.getD k 0 := by
  intro name
  induction name with
  | nil => intro d i k h; simp at h
  | cons b bs ih =>
    intro d i k h
    cases k with
    | zero =>
      rw [strcpyDir, strcpyDir_outside bs (setByte d i b) (i + 1) (i + 0) (by omega)]
      simpa using setByte_self d i b
    | succ m =>
      have hm : m < bs.length := by simpa using h
      have := ih (setByte d i b) (i + 1) m hm
      rw [strcpyDir]
      have harg : i + (m + 1) = (i + 1) + m := by omega
      rw [harg, this]
      rfl

theorem strcpyDir_nul : ∀ (name : List Nat) (d : Buf) (i : Nat),
    strcpyDir d i name (i + name.length) = 0 := by
  intro name
  induction name with
  | nil => intro d i; simpa using setByte_self d i 0
  | cons b bs ih =>
    intro d i
    rw [strcpyDir]
    have := ih (setByte d i b) (i + 1)
    have harg : i + (b :: bs).length = (i + 1) + bs.length := by simp; omega
    rw [harg, this]

theorem readCString_spec : ∀ (name : List Nat) (d : Buf) (i fuel : Nat),
    (∀ k, k < name.length → d (i + k) = name.getD k 0) →
    (∀ b ∈ name, b ≠ 0) →
    d (i + name.length) = 0 →
    name.length < fuel →
    readCString d i fuel = name := by
  intro name
  induction name with
  | nil =>
    intro d i fuel _ _ hnul hfuel
    cases fuel with
    | zero => omega
    | succ m =>
      rw [readCString]
      simp only [List.length, Nat.add_zero] at hnul
      simp [hnul]
  | cons b bs ih =>
    intro d i fuel hat hnz hnul hfuel
    cases fuel with
    | zero => simp at hfuel
    | succ m =>
      have hb : d i = b := by
        have := hat 0 (by simp)
        simpa using this
      have hbnz : b ≠ 0 := hnz b (List.mem_cons_self b bs)
      rw [readCString, hb]
      simp only [hbnz, if_false]
      congr 1
      apply ih d (i + 1) m
      · intro k hk
        have := hat (k + 1) (by simpa using hk)
        have harg : i + (k + 1) = (i + 1) + k := by omega
        rw [harg] at this
        simpa using this
      · intro x hx; exact hnz x (List.mem_cons_of_mem b hx)
      · have harg : i + (b :: bs).length = (i + 1) + bs.length := by simp; omega
        rw [harg] at hnul; exact hnul
      · simp at hfuel; omega

/-! Helper lemmas: record encoding and decoding. -/

theorem update_file_ok (d : Buf) (f : File) (h1 : f.filename.length ≤ MAX_FILENAME_SIZE)
    (h2 : f.dir_data_off + f.filename.length + 15 ≤ DIR_DATA_SIZE) :
    update_file_in_directory d f =
      (0, setU32 (setU32 (setU32
            (strcpyDir (setU16 d f.dir_data_off f.filename.length)
              (f.dir_data_off + 2) f.filename)
            (f.dir_data_off + 2 + f.filename.length + 1) f.start_block)
          (f.dir_data_off + 2 + f.filename.length + 1 + 4) f.num_blocks)
        (f.dir_data_off + 2 + f.filename.length + 1 + 8) f.size) := by
  simp only [MAX_FILENAME_SIZE, DIR_DATA_SIZE, STORAGE_BLOCK_SIZE, DIR_DATA_NUM_BLOCKS] at h1 h2
  simp only [update_file_in_directory, MAX_FILENAME_SIZE, DIR_DATA_SIZE, STORAGE_BLOCK_SIZE,
    DIR_DATA_NUM_BLOCKS]
  rw [if_neg (by omega), if_neg (by omega)]

theorem update_file_ret (d : Buf) (f : File) (h1 : f.filename.length ≤ MAX_FILENAME_SIZE)
    (h2 : f.dir_data_off + f.filename.length + 15 ≤ DIR_DATA_SIZE) :
    (update_file_in_directory d f).1 = 0 := by
  rw [update_file_ok d f h1 h2]

theorem encode_record_eq (d : Buf) (f : File) (h1 : f.filename.length ≤ MAX_FILENAME_SIZE)
    (h2 : f.dir_data_off + f.filename.length + 15 ≤ DIR_DATA_SIZE) :
    encode_record d f =
      setU32 (setU32 (setU32
          (strcpyDir (setU16 d f.dir_data_off f.filename.length)
            (f.dir_data_off + 2) f.filename)
          (f.dir_data_off + 2 + f.filename.length + 1) f.start_block)
        (f.dir_data_off + 2 + f.filename.length + 1 + 4) f.num_blocks)
      (f.dir_data_off + 2 + f.filename.length + 1 + 8) f.size := by
  rw [encode_record, update_file_ok d f h1 h2]

theorem after_setU32s (D : Buf) (p s n z j : Nat) (hj : j < p) :
    setU32 (setU32 (setU32 D p s) (p + 4) n) (p + 8) z j = D j := by
  rw [setU32_outside (setU32 (setU32 D p s) (p + 4) n) (p + 8) z j (by omega),
    setU32_outside (setU32 D p s) (p + 4) n j (by omega),
    setU32_outside D p s j (by omega)]

theorem setU16_at0 (d : Buf) (i v : Nat) : setU16 d i v i = v % 256 := by
  rw [setU16, setByte_other (setByte d i (v % 256)) (i + 1) (v / 256 % 256) i (by omega),
    setByte_self]

theorem setU16_at1 (d : Buf) (i v : Nat) : setU16 d i v (i + 1) = v / 256 % 256 := by
  rw [setU16, setByte_self]

theorem encode_record_outside (d : Buf) (f : File) (j : Nat)
    (h : j < f.dir_data_off ∨ f.dir_data_off + recSize f ≤ j) :
    encode_record d f j = d j := by
  simp only [recSize] at h
  by_cases h1 : f.filename.length ≤ 256
  · by_cases h2 : f.dir_data_off + f.filename.length + 15 ≤ 1024
    · rw [encode_record_eq d f h1 h2]
      rw [setU32_outside _ (f.dir_data_off + 2 + f.filename.length + 1 + 8) f.size j (by omega),
        setU32_outside _ (f.dir_data_off + 2 + f.filename.length + 1 + 4) f.num_blocks j
          (by omega),
        setU32_outside _ (f.dir_data_off + 2 + f.filename.length + 1) f.start_block j (by omega),
        strcpyDir_outside f.filename _ (f.dir_data_off + 2) j (by omega),
        setU16_outside d f.dir_data_off f.filename.length j (by omega)]
    · simp only [encode_record, update_file_in_directory, MAX_FILENAME_SIZE, DIR_DATA_SIZE,
        STORAGE_BLOCK_SIZE, DIR_DATA_NUM_BLOCKS]
      rw [if_neg (by omega), if_pos (by omega)]
  · simp only [encode_record, update_file_in_directory, MAX_FILENAME_SIZE]
    rw [if_pos (by omega)]

theorem encode_record_spec (d : Buf) (f : File) (hwf : RecordWf f)
    (h2 : f.dir_data_off + f.filename.length + 15 ≤ DIR_DATA_SIZE) :
    (update_file_in_directory d f).1 = 0 ∧ EncodedAt (encode_record d f) f := by
  obtain ⟨h1, _hbytes, hs, hn, hz⟩ := hwf
  have hlen16 : f.filename.length < 65536 := by
    simp only [MAX_FILENAME_SIZE] at h1; omega
  refine ⟨update_file_ret d f h1 h2, ?_, ?_, ?_, ?_, ?_, ?_⟩
  · rw [getU16, encode_record_eq d f h1 h2,
      after_setU32s _ (f.dir_data_off + 2 + f.filename.length + 1) f.start_block f.num_blocks
        f.size f.dir_data_off (by omega),
      after_setU32s _ (f.dir_data_off + 2 + f.filename.length + 1) f.start_block f.num_blocks
        f.size (f.dir_data_off + 1) (by omega),
      strcpyDir_outside f.filename _ (f.dir_data_off + 2) f.dir_data_off (by omega),
      strcpyDir_outside f.filename _ (f.dir_data_off + 2) (f.dir_data_off + 1) (by omega),
      setU16_at0, setU16_at1]
    omega
  · intro k hk
    rw [encode_record_eq d f h1 h2,
      after_setU32s _ (f.dir_data_off + 2 + f.filename.length + 1) f.start_block f.num_blocks
        f.size (f.dir_data_off + 2 + k) (by omega)]
    have harg : f.dir_data_off + 2 + k = (f.dir_data_off + 2) + k := by omega
    rw [harg, strcpyDir_at f.filename _ (f.dir_data_off + 2) k hk]
  · rw [encode_record_eq d f h1 h2,
      after_setU32s _ (f.dir_data_off + 2 + f.filename.length + 1) f.start_block f.num_blocks
        f.size (f.dir_data_off + 2 + f.filename.length) (by omega)]
    have harg : f.dir_data_off + 2 + f.filename.length =
        (f.dir_data_off + 2) + f.filename.length := by omega
    rw [harg, strcpyDir_nul f.filename]
  · rw [encode_record_eq d f h1 h2,
      getU32_congr (setU32 (strcpyDir (setU16 d f.dir_data_off f.filename.length)
          (f.dir_data_off + 2) f.filename)
          (f.dir_data_off + 2 + f.filename.length + 1) f.start_block) _
        (f.dir_data_off + 2 + f.filename.length + 1)
        (by rw [setU32_outside _ (f.dir_data_off + 2 + f.filename.length + 1 + 8) f.size _
            (by omega),
          setU32_outside _ (f.dir_data_off + 2 + f.filename.length + 1 + 4) f.num_blocks _
            (by omega)])
        (by rw [setU32_outside _ (f.dir_data_off + 2 + f.filename.length + 1 + 8) f.size _
            (by omega),
          setU32_outside _ (f.dir_data_off + 2 + f.filename.length + 1 + 4) f.num_blocks _
            (by omega)])
        (by rw [setU32_outside _ (f.dir_data_off + 2 + f.filename.length + 1 + 8) f.size _
            (by omega),
          setU32_outside _ (f.dir_data_off + 2 + f.filename.length + 1 + 4) f.num_blocks _
            (by omega)])
        (by rw [setU32_outside _ (f.dir_data_off + 2 + f.filename.length + 1 + 8) f.size _
            (by omega),
          setU32_outside _ (f.dir_data_off + 2 + f.filename.length + 1 + 4) f.num_blocks _
            (by omega)])]
    exact getU32_setU32 _ _ _ hs
  · rw [encode_record_eq d f h1 h2,
      getU32_congr (setU32 (setU32 (strcpyDir (setU16 d f.dir_data_off f.filename.length)
          (f.dir_data_off + 2) f.filename)
          (f.dir_data_off + 2 + f.filename.length + 1) f.start_block)
          (f.dir_data_off + 2 + f.filename.length + 1 + 4) f.num_blocks) _
        (f.dir_data_off + 2 + f.filename.length + 1 + 4)
        (by rw [setU32_outside _ (f.dir_data_off + 2 + f.filename.length + 1 + 8) f.size _
            (by omega)])
        (by rw [setU32_outside _ (f.dir_data_off + 2 + f.filename.length + 1 + 8) f.size _
            (by omega)])
        (by rw [setU32_outside _ (f.dir_data_off + 2 + f.filename.length + 1 + 8) f.size _
            (by omega)])
        (by rw [setU32_outside _ (f.dir_data_off + 2 + f.filename.length + 1 + 8) f.size _
            (by omega)])]
    exact getU32_setU32 _ _ _ hn
  · rw [encode_record_eq d f h1 h2]
    exact getU32_setU32 _ _ _ hz

theorem encodedAt_congr (d d' : Buf) (f : File)
    (h : ∀ j, f.dir_data_off ≤ j → j < f.dir_data_off + recSize f → d' j = d j)
    (he : EncodedAt d f) : EncodedAt d' f := by
  obtain ⟨e1, e2, e3, e4, e5, e6⟩ := he
  simp only [recSize] at h
  refine ⟨?_, ?_, ?_, ?_, ?_, ?_⟩
  · rw [getU16_congr d d' _ (h _ (by omega) (by omega)) (h _ (by omega) (by omega))]
    exact e1
  · intro k hk
    rw [h _ (by omega) (by omega)]
    exact e2 k hk
  · rw [h _ (by omega) (by omega)]; exact e3
  · rw [getU32_congr d d' _ (h _ (by omega) (by omega)) (h _ (by omega) (by omega))
      (h _ (by omega) (by omega)) (h _ (by omega) (by omega))]
    exact e4
  · rw [getU32_congr d d' _ (h _ (by omega) (by omega)) (h _ (by omega) (by omega))
      (h _ (by omega) (by omega)) (h _ (by omega) (by omega))]
    exact e5
  · rw [getU32_congr d d' _ (h _ (by omega) (by omega)) (h _ (by omega) (by omega))
      (h _ (by omega) (by omega)) (h _ (by omega) (by omega))]
    exact e6

theorem offsets_lb : ∀ (fl : List File) (o : Nat), offsetsOk fl o →
    ∀ g ∈ fl, o ≤ g.dir_data_off := by
  intro fl
  induction fl with
  | nil => intro o _ g hg; simp at hg
  | cons f rest ih =>
    intro o ho g hg
    obtain ⟨h1, h2⟩ := ho
    rcases List.mem_cons.mp hg with hg1 | hg2
    · rw [hg1, h1]
    · have := ih (o + recSize f) h2 g hg2
      omega

theorem write_all_records_outside : ∀ (fl : List File) (d : Buf) (j : Nat),
    (∀ g ∈ fl, j < g.dir_data_off) → write_all_records d fl j = d j := by
  intro fl
  induction fl with
  | nil => intro d j _; rfl
  | cons f rest ih =>
    intro d j h
    rw [write_all_records, ih _ _ (fun g hg => h g (List.mem_cons_of_mem f hg)),
      encode_record_outside d f j (Or.inl (h f (List.mem_cons_self f rest)))]

theorem endPtr_mono : ∀ (fl : List File) (o : Nat), o ≤ endPtr fl o := by
  intro fl
  induction fl with
  | nil => intro o; exact Nat.le_refl o
  | cons f rest ih =>
    intro o
    have := ih (o + recSize f)
    rw [endPtr]
    omega

theorem serialize_encodes : ∀ (fl : List File) (d : Buf) (o : Nat),
    (∀ f ∈ fl, RecordWf f) → offsetsOk fl o → endPtr fl o ≤ DIR_DATA_SIZE →
    ∀ f ∈ fl, EncodedAt (write_all_records d fl) f := by
  intro fl
  induction fl with
  | nil => intro d o _ _ _ f hf; simp at hf
  | cons g rest ih =>
    intro d o hwf ho hend f hf
    obtain ⟨ho1, ho2⟩ := ho
    have hfit : g.dir_data_off + g.filename.length + 15 ≤ DIR_DATA_SIZE := by
      have h1 := endPtr_mono rest (o + recSize g)
      rw [endPtr] at hend
      simp only [recSize] at h1 hend ⊢
      omega
    rcases List.mem_cons.mp hf with hf1 | hf2
    · subst hf1
      have hspec := encode_record_spec d f (hwf f (List.mem_cons_self f rest)) hfit
      rw [write_all_records]
      refine encodedAt_congr (encode_record d f) _ f ?_ hspec.2
      intro j hj1 hj2
      apply write_all_records_outside
      intro g2 hg2
      have := offsets_lb rest (o + recSize f) ho2 g2 hg2
      simp only [recSize] at hj2 this ⊢
      omega
    · rw [write_all_records]
      exact ih (encode_record d g) (o + recSize g)
        (fun x hx => hwf x (List.mem_cons_of_mem g hx)) ho2 (by rw [endPtr] at hend; exact hend)
        f hf2

theorem parse_dir_encoded : ∀ (fl : List File) (d : Buf) (o : Nat),
    (∀ f ∈ fl, RecordWf f) → (∀ f ∈ fl, EncodedAt d f) →
    offsetsOk fl o → endPtr fl o ≤ DIR_DATA_SIZE →
    parse_dir d fl.length o = (fl.map resetOpened, endPtr fl o) := by
  intro fl
  induction fl with
  | nil => intro d o _ _ _ _; rfl
  | cons f rest ih =>
    intro d o hwf henc ho hend
    obtain ⟨ho1, ho2⟩ := ho
    have hwfd := hwf f (List.mem_cons_self f rest)
    obtain ⟨hlen, hbytes, _, _, _⟩ := hwfd
    have hed := henc f (List.mem_cons_self f rest)
    obtain ⟨e1, e2, e3, e4, e5, e6⟩ := hed
    have hfit : o + f.filename.length + 15 ≤ DIR_DATA_SIZE := by
      have h1 := endPtr_mono rest (o + recSize f)
      rw [endPtr] at hend
      simp only [recSize] at h1 hend
      omega
    rw [ho1] at e1 e2 e3 e4 e5 e6
    simp only [List.length, parse_dir]
    rw [if_neg (by simp only [DIR_DATA_SIZE, STORAGE_BLOCK_SIZE] at hfit ⊢; omega), e1,
      if_neg (by omega), if_neg (by simp only [MAX_FILENAME_SIZE] at hlen ⊢; omega)]
    have hname : readCString d (o + 2) DIR_DATA_SIZE = f.filename := by
      apply readCString_spec f.filename d (o + 2) DIR_DATA_SIZE
      · intro k hk
        have := e2 k hk
        have harg : (o + 2) + k = o + 2 + k := by omega
        rw [harg]; exact this
      · intro b hb; exact (hbytes b hb).1
      · exact e3
      · simp only [MAX_FILENAME_SIZE] at hlen
        simp only [DIR_DATA_SIZE, STORAGE_BLOCK_SIZE, DIR_DATA_NUM_BLOCKS]
        omega
    have hrest := ih d (o + recSize f)
      (fun x hx => hwf x (List.mem_cons_of_mem f hx))
      (fun x hx => henc x (List.mem_cons_of_mem f hx)) ho2
      (by rw [endPtr] at hend; exact hend)
    simp only [recSize] at hrest
    have harg : o + f.filename.length + 15 = o + (f.filename.length + 15) := by omega
    rw [hname, e4, e5, e6, harg, hrest]
    have hrec : ({ filename := f.filename,
                   start_block := f.start_block,
                   num_blocks := f.num_blocks,
                   size := f.size,
                   dir_data_off := o,
                   opened := false } : File) = resetOpened f := by
      cases f
      simp only [resetOpened]
      simp only at ho1
      rw [ho1]
    rw [hrec]
    dsimp only
    simp only [List.map, endPtr, recSize]

/-! Helper lemmas: bitmap scan. -/

theorem scan_some_props (bm : Nat → Bool) : ∀ rem k j,
    scan_clear_bit bm k rem = some j → k ≤ j ∧ j < k + rem ∧ bm j = false := by
  intro rem
  induction rem with
  | zero => intro k j h; simp [scan_clear_bit] at h
  | succ m ih =>
    intro k j h
    rw [scan_clear_bit] at h
    by_cases hb : bm k
    · rw [if_pos hb] at h
      have := ih (k + 1) j h
      exact ⟨by omega, by omega, this.2.2⟩
    · rw [if_neg hb] at h
      have hj : k = j := by simpa using h
      subst hj
      exact ⟨Nat.le_refl k, by omega, by simpa using hb⟩

theorem scan_eq_some (bm : Nat → Bool) : ∀ rem k j, k ≤ j → j < k + rem → bm j = false →
    (∀ m, k ≤ m → m < j → bm m = true) → scan_clear_bit bm k rem = some j := by
  intro rem
  induction rem with
  | zero => intro k j h1 h2 _ _; omega
  | succ m ih =>
    intro k j h1 h2 h3 h4
    rw [scan_clear_bit]
    by_cases hkj : k = j
    · subst hkj
      rw [if_neg (by simp [h3])]
    · have hb : bm k = true := h4 k (Nat.le_refl k) (by omega)
      rw [if_pos hb]
      exact ih (k + 1) j (by omega) (by omega) h3 (fun x hx1 hx2 => h4 x (by omega) hx2)

/-! Helper lemmas: device level. -/

theorem write_blocks_outside (disk : Disk) (data : Buf) (st n b o : Nat)
    (h : b < st ∨ st + n ≤ b) : write_blocks disk data st n b o = disk b o := by
  simp only [write_blocks]
  rw [if_neg (by omega)]

theorem write_blocks_inside (disk : Disk) (data : Buf) (st n b o : Nat)
    (h : st ≤ b ∧ b < st + n) : write_blocks disk data st n b o =
      data ((b - st) * STORAGE_BLOCK_SIZE + o) := by
  simp only [write_blocks]
  rw [if_pos (by omega)]

theorem read_blocks_flush (disk : Disk) (dd : Buf) (j : Nat) (h : j < DIR_DATA_SIZE) :
    read_blocks (write_blocks disk dd 0 DIR_DATA_NUM_BLOCKS) 0 j = dd j := by
  simp only [read_blocks, write_blocks, DIR_DATA_SIZE, STORAGE_BLOCK_SIZE,
    DIR_DATA_NUM_BLOCKS] at h ⊢
  rw [if_pos (by omega)]
  congr 1
  omega

theorem zero_fill_outside (disk : Disk) (st n b o : Nat) (h : b < st ∨ st + n ≤ b) :
    zero_fill disk st n b o = disk b o := by
  rw [zero_fill, write_blocks_outside disk _ st n b o h]

/-! Helper lemmas: the block-aligned transfer loops. -/

theorem write_loop_done (data : Buf) (base sz : Nat) (fuel : Nat) (disk : Disk)
    (bn boff acc next : Nat) (h : sz ≤ acc) :
    write_loop data base sz fuel disk bn boff acc next = (acc, disk) := by
  cases fuel with
  | zero => rfl
  | succ m =>
    rw [write_loop, if_neg (by omega)]

theorem read_loop_done (disk : Disk) (base sz : Nat) (fuel : Nat) (data : Buf)
    (bn boff acc next : Nat) (h : sz ≤ acc) :
    read_loop disk base sz fuel data bn boff acc next = (acc, data) := by
  cases fuel with
  | zero => rfl
  | succ m =>
    rw [read_loop, if_neg (by omega)]

theorem write_loop_step (data : Buf) (base sz m bn : Nat) (disk : Disk) (acc : Nat)
    (hlt : acc < sz) :
    write_loop data base sz (m + 1) disk bn 0 acc (min 512 (sz - acc)) =
      write_loop data base sz m
        (fun b o => if b = base + bn ∧ 0 ≤ o ∧ o < 0 + min 512 (sz - acc) then
          data (acc + (o - 0)) else disk b o)
        (bn + 1) 0 (acc + min 512 (sz - acc))
        (if sz - (acc + min 512 (sz - acc)) ≥ STORAGE_BLOCK_SIZE then STORAGE_BLOCK_SIZE - 0
         else sz - (acc + min 512 (sz - acc))) := by
  have hblk : write_to_block disk data acc (base + bn) 0 (min 512 (sz - acc)) =
      (min 512 (sz - acc),
        fun b o => if b = base + bn ∧ 0 ≤ o ∧ o < 0 + min 512 (sz - acc) then
          data (acc + (o - 0)) else disk b o) := by
    simp only [write_to_block, STORAGE_BLOCK_SIZE]
    rw [if_neg (by omega)]
  rw [write_loop, if_pos hlt, hblk]
  dsimp only
  rw [if_neg (fun h => h rfl)]

theorem read_loop_step (disk : Disk) (base sz m bn : Nat) (data : Buf) (acc : Nat)
    (hlt : acc < sz) :
    read_loop disk base sz (m + 1) data bn 0 acc (min 512 (sz - acc)) =
      read_loop disk base sz m
        (fun j => if acc ≤ j ∧ j < acc + min 512 (sz - acc) then
          disk (base + bn) (0 + (j - acc)) else data j)
        (bn + 1) 0 (acc + min 512 (sz - acc))
        (if sz - (acc + min 512 (sz - acc)) ≥ STORAGE_BLOCK_SIZE then STORAGE_BLOCK_SIZE - 0
         else sz - (acc + min 512 (sz - acc))) := by
  have hblk : read_from_block disk data acc (base + bn) 0 (min 512 (sz - acc)) =
      (min 512 (sz - acc),
        fun j => if acc ≤ j ∧ j < acc + min 512 (sz - acc) then
          disk (base + bn) (0 + (j - acc)) else data j) := by
    simp only [read_from_block, STORAGE_BLOCK_SIZE]
    rw [if_neg (by omega)]
  rw [read_loop, if_pos hlt, hblk]
  dsimp only
  rw [if_neg (fun h => h rfl)]

theorem write_loop_zero (data : Buf) (base sz : Nat) : ∀ (fuel bn : Nat) (disk : Disk)
    (acc : Nat), acc = 512 * bn → acc ≤ sz → sz - acc ≤ fuel →
    (write_loop data base sz fuel disk bn 0 acc (min 512 (sz - acc))).1 = sz ∧
    (∀ b o, (write_loop data base sz fuel disk bn 0 acc (min 512 (sz - acc))).2 b o =
      if base ≤ b ∧ o < 512 ∧ acc ≤ (b - base) * 512 + o ∧ (b - base) * 512 + o < sz
      then data ((b - base) * 512 + o) else disk b o) := by
  intro fuel
  induction fuel with
  | zero =>
    intro bn disk acc hacc hle hfuel
    have hsz : acc = sz := by omega
    subst hsz
    exact ⟨rfl, fun b o => by rw [write_loop, if_neg (by omega)]⟩
  | succ m ih =>
    intro bn disk acc hacc hle hfuel
    by_cases hlt : acc < sz
    · rw [write_loop_step data base sz m bn disk acc hlt]
      by_cases hend : acc + min 512 (sz - acc) = sz
      · have hnext2 : (if sz - (acc + min 512 (sz - acc)) ≥ STORAGE_BLOCK_SIZE then
            STORAGE_BLOCK_SIZE - 0 else sz - (acc + min 512 (sz - acc))) = 0 := by
          simp only [STORAGE_BLOCK_SIZE, ge_iff_le]
          rw [if_neg (by omega)]
          omega
        rw [hnext2, write_loop_done data base sz m _ (bn + 1) 0 (acc + min 512 (sz - acc)) 0
          (by omega)]
        refine ⟨by dsimp only; omega, fun b o => ?_⟩
        dsimp only
        by_cases hC : b = base + bn ∧ 0 ≤ o ∧ o < 0 + min 512 (sz - acc)
        · rw [if_pos hC, if_pos (by omega)]
          congr 1
          omega
        · rw [if_neg hC, if_neg (by omega)]
      · have h512 : min 512 (sz - acc) = 512 := by omega
        rw [h512] at hend ⊢
        have hnext2 : (if sz - (acc + 512) ≥ STORAGE_BLOCK_SIZE then
            STORAGE_BLOCK_SIZE - 0 else sz - (acc + 512)) = min 512 (sz - (acc + 512)) := by
          simp only [STORAGE_BLOCK_SIZE, ge_iff_le]
          split
          · omega
          · omega
        rw [hnext2]
        have hih := ih (bn + 1) (fun b o => if b = base + bn ∧ 0 ≤ o ∧ o < 0 + 512 then
          data (acc + (o - 0)) else disk b o) (acc + 512) (by omega) (by omega) (by omega)
        refine ⟨hih.1, fun b o => ?_⟩
        rw [hih.2 b o]
        dsimp only
        by_cases hT : base ≤ b ∧ o < 512 ∧ acc ≤ (b - base) * 512 + o ∧ (b - base) * 512 + o < sz
        · rw [if_pos hT]
          by_cases hO : base ≤ b ∧ o < 512 ∧ acc + 512 ≤ (b - base) * 512 + o ∧
              (b - base) * 512 + o < sz
          · rw [if_pos hO]
          · rw [if_neg hO, if_pos (show b = base + bn ∧ 0 ≤ o ∧ o < 0 + 512 by omega)]
            congr 1
            omega
        · rw [if_neg hT, if_neg (by omega), if_neg (by omega)]
    · have hsz : acc = sz := by omega
      subst hsz
      rw [write_loop, if_neg (by omega)]
      exact ⟨rfl, fun b o => by rw [if_neg (by omega)]⟩

theorem read_loop_zero (disk : Disk) (base sz : Nat) : ∀ (fuel bn : Nat) (data : Buf)
    (acc : Nat), acc = 512 * bn → acc ≤ sz → sz - acc ≤ fuel →
    (read_loop disk base sz fuel data bn 0 acc (min 512 (sz - acc))).1 = sz ∧
    (∀ j, (read_loop disk base sz fuel data bn 0 acc (min 512 (sz - acc))).2 j =
      if acc ≤ j ∧ j < sz then disk (base + j / 512) (j % 512) else data j) := by
  intro fuel
  induction fuel with
  | zero =>
    intro bn data acc hacc hle hfuel
    have hsz : acc = sz := by omega
    subst hsz
    exact ⟨rfl, fun j => by rw [read_loop, if_neg (by omega)]⟩
  | succ m ih =>
    intro bn data acc hacc hle hfuel
    by_cases hlt : acc < sz
    · rw [read_loop_step disk base sz m bn data acc hlt]
      by_cases hend : acc + min 512 (sz - acc) = sz
      · have hnext2 : (if sz - (acc + min 512 (sz - acc)) ≥ STORAGE_BLOCK_SIZE then
            STORAGE_BLOCK_SIZE - 0 else sz - (acc + min 512 (sz - acc))) = 0 := by
          simp only [STORAGE_BLOCK_SIZE, ge_iff_le]
          rw [if_neg (by omega)]
          omega
        rw [hnext2, read_loop_done disk base sz m _ (bn + 1) 0 (acc + min 512 (sz - acc)) 0
          (by omega)]
        refine ⟨by dsimp only; omega, fun j => ?_⟩
        dsimp only
        by_cases hC : acc ≤ j ∧ j < acc + min 512 (sz - acc)
        · rw [if_pos hC, if_pos (by omega)]
          have hb : base + bn = base + j / 512 := by omega
          have ho : 0 + (j - acc) = j % 512 := by omega
          rw [hb, ho]
        · rw [if_neg hC, if_neg (by omega)]
      · have h512 : min 512 (sz - acc) = 512 := by omega
        rw [h512] at hend ⊢
        have hnext2 : (if sz - (acc + 512) ≥ STORAGE_BLOCK_SIZE then
            STORAGE_BLOCK_SIZE - 0 else sz - (acc + 512)) = min 512 (sz - (acc + 512)) := by
          simp only [STORAGE_BLOCK_SIZE, ge_iff_le]
          split
          · omega
          · omega
        rw [hnext2]
        have hih := ih (bn + 1) (fun j => if acc ≤ j ∧ j < acc + 512 then
          disk (base + bn) (0 + (j - acc)) else data j) (acc + 512) (by omega) (by omega)
          (by omega)
        refine ⟨hih.1, fun j => ?_⟩
        rw [hih.2 j]
        dsimp only
        by_cases hT : acc ≤ j ∧ j < sz
        · rw [if_pos hT]
          by_cases hO : acc + 512 ≤ j ∧ j < sz
          · rw [if_pos hO]
          · rw [if_neg hO, if_pos (show acc ≤ j ∧ j < acc + 512 by omega)]
            have hb : base + bn = base + j / 512 := by omega
            have ho : 0 + (j - acc) = j % 512 := by omega
            rw [hb, ho]
        · rw [if_neg hT, if_neg (by omega), if_neg (by omega)]
    · have hsz : acc = sz := by omega
      subst hsz
      rw [read_loop, if_neg (by omega)]
      exact ⟨rfl, fun j => by rw [if_neg (by omega)]⟩

/-! Helper lemmas: the allocator scan versus the spec's maximum. -/

theorem set_oob : ∀ (l : List File) (i : Nat) (a : File), l.length ≤ i → l.set i a = l := by
  intro l
  induction l with
  | nil => intro i a _; cases i <;> rfl
  | cons x xs ih =>
    intro i a h
    cases i with
    | zero => simp at h
    | succ n =>
      simp only [List.set]
      rw [ih n a (by simpa using h)]

theorem foldl_max_ge_init : ∀ (fl : List File) (a : Nat),
    a ≤ fl.foldl (fun m g => max m (g.start_block + g.num_blocks)) a := by
  intro fl
  induction fl with
  | nil => intro a; exact Nat.le_refl a
  | cons f rest ih =>
    intro a
    have h1 : a ≤ max a (f.start_block + f.num_blocks) := Nat.le_max_left _ _
    exact Nat.le_trans h1 (ih (max a (f.start_block + f.num_blocks)))

theorem foldl_max_ge_mem : ∀ (fl : List File) (a : Nat) (g : File), g ∈ fl →
    g.start_block + g.num_blocks ≤
      fl.foldl (fun m x => max m (x.start_block + x.num_blocks)) a := by
  intro fl
  induction fl with
  | nil => intro a g hg; simp at hg
  | cons f rest ih =>
    intro a g hg
    rcases List.mem_cons.mp hg with h1 | h2
    · subst h1
      exact Nat.le_trans (Nat.le_max_right a _) (foldl_max_ge_init rest _)
    · exact ih _ g h2

theorem empty_start_fold_eq : ∀ (fl : List File) (s : Nat), 2 ≤ s →
    (∀ f ∈ fl, FileOk f) →
    (∀ f ∈ fl, f.start_block < s → f.start_block + f.num_blocks ≤ s) →
    (∀ f g, f ∈ fl → g ∈ fl → f = g ∨ Disjoint2 f g) →
    fl.foldl (fun sb g => if g.start_block ≥ sb then g.start_block + g.num_blocks else sb) s =
      fl.foldl (fun m g => max m (g.start_block + g.num_blocks)) s := by
  intro fl
  induction fl with
  | nil => intro s _ _ _ _; rfl
  | cons f rest ih =>
    intro s hs hok hcap hpair
    simp only [List.foldl]
    by_cases hge : f.start_block ≥ s
    · rw [if_pos hge]
      have hmax : max s (f.start_block + f.num_blocks) = f.start_block + f.num_blocks := by
        omega
      rw [hmax]
      apply ih (f.start_block + f.num_blocks) (by omega)
        (fun x hx => hok x (List.mem_cons_of_mem f hx))
      · intro g hg hglt
        by_cases hgs : g.start_block < s
        · have := hcap g (List.mem_cons_of_mem f hg) hgs
          omega
        · rcases hpair f g (List.mem_cons_self f rest) (List.mem_cons_of_mem f hg) with
            heq | hdis
          · rw [← heq]
          · rcases hdis with h1 | h2
            · omega
            · omega
      · intro x y hx hy
        exact hpair x y (List.mem_cons_of_mem f hx) (List.mem_cons_of_mem f hy)
    · rw [if_neg hge]
      have hfle : f.start_block + f.num_blocks ≤ s :=
        hcap f (List.mem_cons_self f rest) (by omega)
      have hmax : max s (f.start_block + f.num_blocks) = s := by omega
      rw [hmax]
      exact ih s hs (fun x hx => hok x (List.mem_cons_of_mem f hx))
        (fun g hg hglt => hcap g (List.mem_cons_of_mem f hg) hglt)
        (fun x y hx hy => hpair x y (List.mem_cons_of_mem f hx) (List.mem_cons_of_mem f hy))

theorem extInv_mem_pairs (fl : List File) (hinv : ExtInv fl) :
    ∀ f g, f ∈ fl → g ∈ fl → f = g ∨ Disjoint2 f g := by
  intro f g hf hg
  rcases index_of_mem fl f hf with ⟨i, hi, hif⟩
  rcases index_of_mem fl g hg with ⟨j, hj, hjg⟩
  by_cases hij : i = j
  · subst hij
    left
    rw [← hif, hjg]
  · right
    have := hinv.2 i j hi hj hij
    rw [hif, hjg] at this
    exact this

theorem empty_file_start_spec (fl : List File) (hinv : ExtInv fl) :
    empty_file_start fl = spec_alloc_start fl := by
  rw [empty_file_start, spec_alloc_start]
  apply empty_start_fold_eq fl DIR_DATA_NUM_BLOCKS (Nat.le_refl 2) hinv.1
  · intro f hf hlt
    have hok := hinv.1 f hf
    by_cases hz : f.num_blocks = 0
    · rw [hz]
      simp only [DIR_DATA_NUM_BLOCKS] at hlt ⊢
      omega
    · have := hok.2 hz
      simp only [DIR_DATA_NUM_BLOCKS] at this hlt
      omega
  · exact extInv_mem_pairs fl hinv

theorem spec_alloc_ge_end (fl : List File) (g : File) (hg : g ∈ fl) :
    g.start_block + g.num_blocks ≤ spec_alloc_start fl :=
  foldl_max_ge_mem fl DIR_DATA_NUM_BLOCKS g hg

theorem spec_alloc_ge_two (fl : List File) : 2 ≤ spec_alloc_start fl :=
  foldl_max_ge_init fl DIR_DATA_NUM_BLOCKS

/-! Helper lemmas: preservation of the extent invariant. -/

theorem ExtInv_nil : ExtInv [] := by
  constructor
  · intro f hf; simp at hf
  · intro i j hi _ _; simp at hi

theorem ExtInv_set_disjoint (fl : List File) (i : Nat) (a : File) (h : ExtInv fl)
    (ha : FileOk a)
    (hdis : ∀ j, j < fl.length → j ≠ i →
      Disjoint2 a (fl.getD j default) ∧ Disjoint2 (fl.getD j default) a) :
    ExtInv (fl.set i a) := by
  by_cases hlen : i < fl.length
  · constructor
    · intro x hx
      rcases mem_set_cases fl i a x hx with h1 | h2
      · rw [h1]; exact ha
      · exact h.1 x h2
    · intro j k hj hk hjk
      rw [List.length_set] at hj hk
      by_cases hji : j = i
      · subst hji
        rw [getD_set_self fl j a hj, getD_set_ne fl j k a hjk]
        exact (hdis k hk (fun hh => hjk hh.symm)).1
      · by_cases hki : k = i
        · subst hki
          rw [getD_set_self fl k a hk, getD_set_ne fl k j a (fun hh => hji hh.symm)]
          exact (hdis j hj hji).2
        · rw [getD_set_ne fl i j a (fun hh => hji hh.symm),
            getD_set_ne fl i k a (fun hh => hki hh.symm)]
          exact h.2 j k hj hk hjk
  · rw [set_oob fl i a (by omega)]
    exact h

theorem getD_oob : ∀ (l : List File) (i : Nat), l.length ≤ i → l.getD i default = default := by
  intro l
  induction l with
  | nil => intro i _; cases i <;> rfl
  | cons x xs ih =>
    intro i h
    cases i with
    | zero => simp at h
    | succ n => exact ih n (by simpa using h)

theorem ExtInv_set_same_ext (fl : List File) (i : Nat) (a : File)
    (hs : a.start_block = (fl.getD i default).start_block)
    (hn : a.num_blocks = (fl.getD i default).num_blocks) (h : ExtInv fl) :
    ExtInv (fl.set i a) := by
  by_cases hlen : i < fl.length
  · apply ExtInv_set_disjoint fl i a h
    · have hfo := h.1 _ (getD_mem fl i hlen)
      constructor
      · intro hz; rw [hs]; exact hfo.1 (by rw [← hn]; exact hz)
      · intro hz; rw [hs]; exact hfo.2 (by rw [hn] at hz; exact hz)
    · intro j hj hji
      have h1 := h.2 i j hlen hj (fun hh => hji hh.symm)
      have h2 := h.2 j i hj hlen hji
      constructor
      · rw [Disjoint2, hs, hn]; exact h1
      · rw [Disjoint2, hs, hn]; exact h2
  · rw [set_oob fl i a (by omega)]
    exact h

theorem ExtInv_append_empty (fl : List File) (a : File) (h : ExtInv fl)
    (hnum : a.num_blocks = 0) (hstart : a.start_block = 0) : ExtInv (fl ++ [a]) := by
  constructor
  · intro x hx
    rcases List.mem_append.mp hx with h1 | h2
    · exact h.1 x h1
    · have : x = a := by simpa using h2
      rw [this]
      exact ⟨fun _ => hstart, fun hz => absurd hnum hz⟩
  · intro i j hi hj hij
    rw [List.length_append, List.length_singleton] at hi hj
    by_cases hia : i = fl.length
    · subst hia
      have hjlt : j < fl.length := by omega
      rw [getD_append_len fl a, getD_append_lt fl [a] j hjlt]
      rw [Disjoint2, hnum, hstart]
      left
      omega
    · by_cases hja : j = fl.length
      · subst hja
        have hilt : i < fl.length := by omega
        rw [getD_append_len fl a, getD_append_lt fl [a] i hilt]
        rw [Disjoint2, hnum, hstart]
        right
        omega
      · have hilt : i < fl.length := by omega
        have hjlt : j < fl.length := by omega
        rw [getD_append_lt fl [a] i hilt, getD_append_lt fl [a] j hjlt]
        exact h.2 i j hilt hjlt hij

theorem blocked_tail_false (fl : List File) (lo hi : Nat) (h : blocked_tail fl lo hi = false) :
    ∀ g ∈ fl, ¬(lo ≤ g.start_block ∧ g.start_block < hi) := by
  intro g hg hcon
  have : blocked_tail fl lo hi = true := by
    rw [blocked_tail, List.any_eq_true]
    exact ⟨g, hg, by simpa using hcon⟩
  rw [h] at this
  simp at this

theorem expand_empty_inv (s : FS) (i k : Nat) (hk : 1 ≤ k) (hinv : ExtInv s.files) :
    ExtInv ((expand_empty_file s i k).2).files := by
  simp only [expand_empty_file]
  by_cases hc : empty_file_start s.files + k ≥ s.partition_num_blocks
  · rw [if_pos hc]
    exact hinv
  · rw [if_neg hc]
    dsimp only
    have hspec := empty_file_start_spec s.files hinv
    apply ExtInv_set_disjoint s.files i _ hinv
    · constructor
      · intro hz
        simp only at hz
        omega
      · intro _
        simp only
        rw [hspec]
        exact spec_alloc_ge_two s.files
    · intro j hj _
      have hend := spec_alloc_ge_end s.files _ (getD_mem s.files j hj)
      rw [← hspec] at hend
      constructor
      · rw [Disjoint2]
        right
        simpa using hend
      · rw [Disjoint2]
        left
        simpa using hend

theorem expand_existing_inv (s : FS) (i k : Nat) (hinv : ExtInv s.files) :
    ExtInv ((expand_existing_file s i k).2).files := by
  simp only [expand_existing_file]
  cases hb : blocked_tail s.files
    ((s.files.getD i default).start_block + (s.files.getD i default).num_blocks)
    ((s.files.getD i default).start_block + (s.files.getD i default).num_blocks + k) with
  | true =>
    rw [if_pos rfl]
    exact hinv
  | false =>
    rw [if_neg (by simp)]
    have hbf := blocked_tail_false _ _ _ hb
    by_cases hp : (s.files.getD i default).start_block + (s.files.getD i default).num_blocks +
        k ≥ s.partition_num_blocks
    · rw [if_pos hp]
      exact hinv
    · rw [if_neg hp]
      dsimp only
      by_cases hlen : i < s.files.length
      · have hself := hbf _ (getD_mem s.files i hlen)
        have hfo := hinv.1 _ (getD_mem s.files i hlen)
        apply ExtInv_set_disjoint s.files i _ hinv
        · constructor
          · intro hz
            simp only at hz
            simp only
            exact hfo.1 (by omega)
          · intro hz
            simp only at hz ⊢
            by_cases hfz : (s.files.getD i default).num_blocks = 0
            · have hst := hfo.1 hfz
              rw [hfz, hst] at hself
              simp only [Nat.add_zero, Nat.zero_add, Nat.le_refl, true_and, Nat.not_lt] at hself
              omega
            · have h2 := hfo.2 hfz
              simp only [DIR_DATA_NUM_BLOCKS] at h2 ⊢
              omega
        · intro j hj hji
          have hg := hbf _ (getD_mem s.files j hj)
          have h1 := hinv.2 i j hlen hj (fun hh => hji hh.symm)
          have h2 := hinv.2 j i hj hlen hji
          rw [Disjoint2] at h1 h2
          constructor
          · rw [Disjoint2]
            simp only
            omega
          · rw [Disjoint2]
            simp only
            omega
      · rw [set_oob s.files i _ (by omega)]
        exact hinv

theorem expand_file_size_inv (s : FS) (i sz : Nat) (hinv : ExtInv s.files) :
    ExtInv ((expand_file_size s i sz).2).files := by
  rw [expand_file_size]
  by_cases h0 : (s.files.getD i default).size ≥ sz
  · rw [if_pos h0]
    exact hinv
  · rw [if_neg h0]
    dsimp only
    have key : ∀ (r : Int × FS) (fl2 : List File), ExtInv r.2.files → ExtInv fl2 →
        ExtInv ((if r.1 ≠ 0 then r
          else ((update_file_in_directory r.2.dir_data (fl2.getD i default)).1,
            flush_dir_data_to_storage { r.2 with files := fl2, dir_data := (update_file_in_directory r.2.dir_data (fl2.getD i default)).2 })).2).files := by
      intro r fl2 hre hf2
      split
      · exact hre
      · simp only [flush_dir_data_to_storage]
        exact hf2
    have hrr : ExtInv ((if STORAGE_BLOCK_SIZE - (s.files.getD i default).size %
          STORAGE_BLOCK_SIZE ≠ STORAGE_BLOCK_SIZE ∧
          STORAGE_BLOCK_SIZE - (s.files.getD i default).size % STORAGE_BLOCK_SIZE ≥
            (if (s.files.getD i default).size = 0 then sz
             else sz - (s.files.getD i default).size) then (0, s)
        else if (s.files.getD i default).size = 0 then
          expand_empty_file s i
            ((if (s.files.getD i default).size = 0 then sz
              else sz - (s.files.getD i default).size) / STORAGE_BLOCK_SIZE +
              if (if (s.files.getD i default).size = 0 then sz
                else sz - (s.files.getD i default).size) % STORAGE_BLOCK_SIZE ≠ 0 then 1 else 0)
        else
          expand_existing_file s i
            ((if (s.files.getD i default).size = 0 then sz
              else sz - (s.files.getD i default).size) / STORAGE_BLOCK_SIZE +
              if (if (s.files.getD i default).size = 0 then sz
                else sz - (s.files.getD i default).size) % STORAGE_BLOCK_SIZE ≠ 0 then 1
              else 0)).2).files := by
      split <;> split <;>
        first
          | exact hinv
          | exact expand_existing_inv s i _ hinv
          | (apply expand_empty_inv s i _ _ hinv
             simp only [STORAGE_BLOCK_SIZE]
             split
             · omega
             · omega)
    apply key _ _ hrr
    apply ExtInv_set_same_ext
    · simp only
    · simp only
    · exact hrr

theorem add_file_files (s : FS) (f : File) : (add_file_to_directory s f).2.2.files = s.files := by
  rw [add_file_to_directory]
  split
  · rfl
  · rfl

theorem add_file_rec_ext (s : FS) (f : File) :
    (add_file_to_directory s f).2.1.start_block = f.start_block ∧
    (add_file_to_directory s f).2.1.num_blocks = f.num_blocks := by
  rw [add_file_to_directory]
  split
  · exact ⟨rfl, rfl⟩
  · exact ⟨rfl, rfl⟩

theorem write_files_inv (s : FS) (fd : Nat) (data : Buf) (sz off : Nat)
    (hinv : ExtInv s.files) :
    ExtInv ((file_system_write_to_file s fd data sz off).2).files := by
  rw [file_system_write_to_file]
  split
  · exact hinv
  · cases hfa : s.file_array fd with
    | none => exact hinv
    | some i =>
      dsimp only
      repeat' split
      all_goals
        first
          | exact hinv
          | exact expand_file_size_inv s i (off + sz) hinv

theorem close_files_inv (s : FS) (fd : Nat) (hinv : ExtInv s.files) :
    ExtInv ((file_system_close_file s fd).2).files := by
  rw [file_system_close_file]
  split
  · exact hinv
  · cases hfa : s.file_array fd with
    | none => exact hinv
    | some i =>
      dsimp only
      split
      · exact hinv
      · dsimp only
        exact ExtInv_set_same_ext _ i _ (by simp only) (by simp only) hinv

theorem open_files_inv (s : FS) (name : List Nat) (mode : Nat) (hinv : ExtInv s.files) :
    ExtInv ((file_system_open_file s name mode).2).files := by
  rw [file_system_open_file]
  split
  · exact hinv
  · cases hff : find_file name s.files 0 none with
    | error e => exact hinv
    | ok found =>
      dsimp only
      cases found with
      | some i =>
        dsimp only
        repeat' split
        all_goals
          first
            | exact hinv
            | exact ExtInv_set_same_ext _ i _ (by simp only) (by simp only) hinv
      | none =>
        dsimp only
        by_cases hmode : mode = FILE_OPEN_CREATE_MODE
        · rw [if_pos hmode]
          by_cases hadd : (add_file_to_directory s
              { filename := name, start_block := 0, num_blocks := 0, size := 0,
                dir_data_off := 0, opened := false }).1 ≠ 0
          · rw [if_pos hadd]
            exact hinv
          · rw [if_neg hadd]
            dsimp only
            have happ : ExtInv ((add_file_to_directory s
                { filename := name, start_block := 0, num_blocks := 0, size := 0,
                  dir_data_off := 0, opened := false }).2.2.files ++
                [(add_file_to_directory s
                  { filename := name, start_block := 0, num_blocks := 0, size := 0,
                    dir_data_off := 0, opened := false }).2.1]) := by
              rw [add_file_files]
              exact ExtInv_append_empty s.files _ hinv (add_file_rec_ext s _).2
                (add_file_rec_ext s _).1
            repeat' split
            all_goals
              first
                | exact happ
                | exact ExtInv_set_same_ext _ _ _ (by simp only) (by simp only) happ
        · rw [if_neg hmode]
          exact hinv

theorem applyOp_ExtInv (s : FS) (op : FSOp) (h : ExtInv s.files) :
    ExtInv (applyOp s op).files := by
  cases op with
  | openf n m => exact open_files_inv s n m h
  | write fd d sz off => exact write_files_inv s fd d sz off h
  | readf fd sz off => exact h
  | closef fd => exact close_files_inv s fd h

theorem run_ExtInv : ∀ (ops : List FSOp) (s : FS), ExtInv s.files → ExtInv (run s ops).files := by
  intro ops
  induction ops with
  | nil => intro s h; exact h
  | cons op rest ih =>
    intro s h
    exact ih (applyOp s op) (applyOp_ExtInv s op h)

theorem init_blank_files (p : Nat) : (init_file_system blankDisk p).files = [] := rfl

theorem reachable_ExtInv (s : FS) (h : Reachable s) : ExtInv s.files := by
  rcases h with ⟨p, ops, rfl⟩
  apply run_ExtInv
  rw [init_blank_files]
  exact ExtInv_nil

theorem find_file_some : ∀ (fl : List File) (name : List Nat) (i0 : Nat) (acc : Option Nat)
    (j : Nat), find_file name fl i0 acc = .ok (some j) →
    acc = some j ∨ (i0 ≤ j ∧ j - i0 < fl.length ∧
      (fl.getD (j - i0) default).filename = name ∧
      (fl.getD (j - i0) default).opened = false) := by
  intro fl
  induction fl with
  | nil =>
    intro name i0 acc j h
    left
    rw [find_file] at h
    simpa using h
  | cons f rest ih =>
    intro name i0 acc j h
    rw [find_file] at h
    by_cases hn : f.filename = name
    · rw [if_pos hn] at h
      by_cases ho : f.opened = true
      · rw [if_pos ho] at h
        simp at h
      · rw [if_neg ho] at h
        rcases ih name (i0 + 1) (some i0) j h with h1 | h2
        · right
          have hj : j = i0 := by
            have := h1.symm
            simpa using this
          subst hj
          refine ⟨Nat.le_refl j, by simp, ?_, ?_⟩
          · simpa [Nat.sub_self] using hn
          · simp only [Nat.sub_self]
            simpa using ho
        · right
          obtain ⟨hle, hlt, hname2, hop⟩ := h2
          refine ⟨by omega, ?_, ?_, ?_⟩
          · simp only [List.length]
            omega
          · have harg : j - i0 = (j - (i0 + 1)) + 1 := by omega
            rw [harg]
            simpa using hname2
          · have harg : j - i0 = (j - (i0 + 1)) + 1 := by omega
            rw [harg]
            simpa using hop
    · rw [if_neg hn] at h
      rcases ih name (i0 + 1) acc j h with h1 | h2
      · left; exact h1
      · right
        obtain ⟨hle, hlt, hname2, hop⟩ := h2
        refine ⟨by omega, ?_, ?_, ?_⟩
        · simp only [List.length]
          omega
        · have harg : j - i0 = (j - (i0 + 1)) + 1 := by omega
          rw [harg]
          simpa using hname2
        · have harg : j - i0 = (j - (i0 + 1)) + 1 := by omega
          rw [harg]
          simpa using hop

theorem find_file_top (fl : List File) (name : List Nat) (j : Nat)
    (h : find_file name fl 0 none = .ok (some j)) :
    j < fl.length ∧ (fl.getD j default).filename = name ∧
      (fl.getD j default).opened = false := by
  rcases find_file_some fl name 0 none j h with h1 | h2
  · simp at h1
  · obtain ⟨_, hlt, hname2, hop⟩ := h2
    rw [Nat.sub_zero] at hlt hname2 hop
    exact ⟨hlt, hname2, hop⟩

theorem set_preserves_opened (fl : List File) (i : Nat) (a : File)
    (ha : a.opened = (fl.getD i default).opened) :
    ∀ j, ((fl.set i a).getD j default).opened = (fl.getD j default).opened := by
  intro j
  by_cases hlen : i < fl.length
  · by_cases hij : i = j
    · subst hij
      rw [getD_set_self fl i a hlen, ha]
    · rw [getD_set_ne fl i j a hij]
  · rw [set_oob fl i a (by omega)]

theorem expand_empty_file_shape (s : FS) (i k : Nat) :
    ((expand_empty_file s i k).2).files.length = s.files.length ∧
    (∀ j, (((expand_empty_file s i k).2).files.getD j default).opened =
      ((s.files.getD j default).opened)) ∧
    ((expand_empty_file s i k).2).file_array = s.file_array ∧
    ((expand_empty_file s i k).2).fd_bitmap = s.fd_bitmap := by
  rw [expand_empty_file]
  split
  · exact ⟨rfl, fun j => rfl, rfl, rfl⟩
  · refine ⟨List.length_set _ _ _, ?_, rfl, rfl⟩
    exact set_preserves_opened s.files i _ (by simp only)

theorem expand_existing_file_shape (s : FS) (i k : Nat) :
    ((expand_existing_file s i k).2).files.length = s.files.length ∧
    (∀ j, (((expand_existing_file s i k).2).files.getD j default).opened =
      ((s.files.getD j default).opened)) ∧
    ((expand_existing_file s i k).2).file_array = s.file_array ∧
    ((expand_existing_file s i k).2).fd_bitmap = s.fd_bitmap := by
  rw [expand_existing_file]
  split
  · exact ⟨rfl, fun j => rfl, rfl, rfl⟩
  · split
    · exact ⟨rfl, fun j => rfl, rfl, rfl⟩
    · refine ⟨List.length_set _ _ _, ?_, rfl, rfl⟩
      exact set_preserves_opened s.files i _ (by simp only)

theorem expand_file_size_shape (s : FS) (i sz : Nat) :
    ((expand_file_size s i sz).2).files.length = s.files.length ∧
    (∀ j, (((expand_file_size s i sz).2).files.getD j default).opened =
      ((s.files.getD j default).opened)) ∧
    ((expand_file_size s i sz).2).file_array = s.file_array ∧
    ((expand_file_size s i sz).2).fd_bitmap = s.fd_bitmap := by
  rw [expand_file_size]
  split
  · exact ⟨rfl, fun j => rfl, rfl, rfl⟩
  · dsimp only
    have key : ∀ (r : Int × FS),
        r.2.files.length = s.files.length →
        (∀ j, ((r.2.files.getD j default).opened) = ((s.files.getD j default).opened)) →
        r.2.file_array = s.file_array → r.2.fd_bitmap = s.fd_bitmap →
        ∀ (fl2 : List File), fl2 = r.2.files.set i { r.2.files.getD i default with size := sz } →
        ((if r.1 ≠ 0 then r
          else ((update_file_in_directory r.2.dir_data (fl2.getD i default)).1,
            flush_dir_data_to_storage { r.2 with files := fl2, dir_data := (update_file_in_directory r.2.dir_data (fl2.getD i default)).2 })).2).files.length = s.files.length ∧
        (∀ j, (((if r.1 ≠ 0 then r
          else ((update_file_in_directory r.2.dir_data (fl2.getD i default)).1,
            flush_dir_data_to_storage { r.2 with files := fl2, dir_data := (update_file_in_directory r.2.dir_data (fl2.getD i default)).2 })).2).files.getD j default).opened =
          ((s.files.getD j default).opened)) ∧
        ((if r.1 ≠ 0 then r
          else ((update_file_in_directory r.2.dir_data (fl2.getD i default)).1,
            flush_dir_data_to_storage { r.2 with files := fl2, dir_data := (update_file_in_directory r.2.dir_data (fl2.getD i default)).2 })).2).file_array = s.file_array ∧
        ((if r.1 ≠ 0 then r
          else ((update_file_in_directory r.2.dir_data (fl2.getD i default)).1,
            flush_dir_data_to_storage { r.2 with files := fl2, dir_data := (update_file_in_directory r.2.dir_data (fl2.getD i default)).2 })).2).fd_bitmap = s.fd_bitmap := by
      intro r hlen hop hfa hbm fl2 hfl2
      split
      · exact ⟨hlen, hop, hfa, hbm⟩
      · simp only [flush_dir_data_to_storage]
        refine ⟨?_, ?_, hfa, hbm⟩
        · rw [hfl2, List.length_set]
          exact hlen
        · intro j
          rw [hfl2]
          rw [set_preserves_opened r.2.files i _ (by simp only) j]
          exact hop j
    split <;>
      first
        | exact key _ rfl (fun j => rfl) rfl rfl _ rfl
        | (split <;>
            first
              | exact key _ rfl (fun j => rfl) rfl rfl _ rfl
              | exact key _ (expand_empty_file_shape s i _).1 (expand_empty_file_shape s i _).2.1
                  (expand_empty_file_shape s i _).2.2.1 (expand_empty_file_shape s i _).2.2.2
                  _ rfl
              | exact key _ (expand_existing_file_shape s i _).1
                  (expand_existing_file_shape s i _).2.1
                  (expand_existing_file_shape s i _).2.2.1
                  (expand_existing_file_shape s i _).2.2.2 _ rfl)

/-! Helper lemmas: preservation of the descriptor-table invariant. -/

theorem FdInv_of_components (s s' : FS)
    (hfa : s'.file_array = s.file_array) (hbm : s'.fd_bitmap = s.fd_bitmap)
    (hlen : s'.files.length = s.files.length)
    (hop : ∀ j, (s'.files.getD j default).opened = (s.files.getD j default).opened)
    (h : FdInv s) : FdInv s' := by
  obtain ⟨h1, h2, h3⟩ := h
  refine ⟨?_, ?_, ?_⟩
  · intro d i hdi
    rw [hfa] at hdi
    have ho := h1 d i hdi
    exact ⟨ho.1, ho.2.1, by rw [hlen]; exact ho.2.2.1, by rw [hop i]; exact ho.2.2.2.1,
      by rw [hbm]; exact ho.2.2.2.2⟩
  · intro d d' i hd hd'
    rw [hfa] at hd hd'
    exact h2 d d' i hd hd'
  · rw [hbm]; exact h3

theorem FdInv_bitmap_mono (s1 : FS) (bm : Nat → Bool)
    (hmono : ∀ j, s1.fd_bitmap j = true → bm j = true) (h : FdInv s1) :
    FdInv { s1 with fd_bitmap := bm } := by
  obtain ⟨h1, h2, h3⟩ := h
  refine ⟨?_, h2, hmono 0 h3⟩
  intro d i hdi
  have ho := h1 d i hdi
  exact ⟨ho.1, ho.2.1, ho.2.2.1, ho.2.2.2.1, hmono _ ho.2.2.2.2⟩

theorem FdInv_append (s : FS) (a : File) (h : FdInv s) :
    FdInv { s with files := s.files ++ [a] } := by
  obtain ⟨h1, h2, h3⟩ := h
  refine ⟨?_, h2, h3⟩
  intro d i hdi
  have ho := h1 d i hdi
  refine ⟨ho.1, ho.2.1, ?_, ?_, ho.2.2.2.2⟩
  · simp only [List.length_append, List.length_singleton]
    omega
  · rw [getD_append_lt s.files [a] i ho.2.2.1]
    exact ho.2.2.2.1

theorem add_file_fd_eq (s : FS) (f : File) :
    (add_file_to_directory s f).2.2.file_array = s.file_array ∧
    (add_file_to_directory s f).2.2.fd_bitmap = s.fd_bitmap := by
  rw [add_file_to_directory]
  split
  · exact ⟨rfl, rfl⟩
  · exact ⟨rfl, rfl⟩

theorem add_file_rec_opened (s : FS) (f : File) :
    (add_file_to_directory s f).2.1.opened = f.opened := by
  rw [add_file_to_directory]
  split
  · rfl
  · rfl

theorem open_install_FdInv (s1 : FS) (i : Nat) (h : FdInv s1) (hi : i < s1.files.length)
    (hop : (s1.files.getD i default).opened = false) :
    FdInv ((let r := get_unused_fd s1.fd_bitmap
      let s2 : FS := { s1 with fd_bitmap := r.2 }
      if r.1 < 0 then ((0 : Nat), s2)
      else
        let fd := r.1.toNat
        if fd = 0 ∨ fd ≥ MAX_NUM_FD then (0, s2)
        else if (s2.file_array fd).isSome then (0, s2)
        else
          (fd, { s2 with
            file_array := fun j => if j = fd then some i else s2.file_array j,
            files := s2.files.set i
              { s2.files.getD i default with opened := true } })).2) := by
  cases hscan : scan_clear_bit s1.fd_bitmap 0 MAX_NUM_FD with
  | none =>
    have hg : get_unused_fd s1.fd_bitmap = (ERR_EXIST, s1.fd_bitmap) := by
      rw [get_unused_fd, hscan]
    simp only [hg]
    rw [if_pos (by decide)]
    exact FdInv_bitmap_mono s1 _ (fun j hj => hj) h
  | some k =>
    have hg : get_unused_fd s1.fd_bitmap =
        ((k : Int) + 1, fun j => if j = k then true else s1.fd_bitmap j) := by
      rw [get_unused_fd, hscan]
    obtain ⟨hk0, hk64, hkbm⟩ := scan_some_props s1.fd_bitmap MAX_NUM_FD 0 k hscan
    have hkne0 : k ≠ 0 := by
      intro hh
      rw [hh, h.2.2] at hkbm
      cases hkbm
    have hmono : ∀ j, s1.fd_bitmap j = true →
        (if j = k then true else s1.fd_bitmap j) = true := by
      intro j hj
      by_cases hjk : j = k
      · rw [if_pos hjk]
      · rw [if_neg hjk]; exact hj
    simp only [hg]
    have htn : ((k : Int) + 1).toNat = k + 1 := by omega
    rw [if_neg (by omega)]
    simp only [htn]
    by_cases hk63 : k + 1 ≥ MAX_NUM_FD
    · rw [if_pos (Or.inr hk63)]
      exact FdInv_bitmap_mono s1 _ hmono h
    · rw [if_neg (by simp only [MAX_NUM_FD] at hk63 ⊢; omega)]
      have hnone : s1.file_array (k + 1) = none := by
        cases hfa2 : s1.file_array (k + 1) with
        | none => rfl
        | some i2 =>
          have hb := (h.1 _ _ hfa2).2.2.2.2
          rw [Nat.add_sub_cancel, hkbm] at hb
          cases hb
      rw [if_neg (by
        show ¬(({ s1 with fd_bitmap := fun j => if j = k then true else s1.fd_bitmap j } :
          FS).file_array (k + 1)).isSome = true
        rw [show ({ s1 with fd_bitmap := fun j => if j = k then true else s1.fd_bitmap j } :
          FS).file_array (k + 1) = none from hnone]
        simp)]
      refine ⟨?_, ?_, ?_⟩
      · intro d i2 hdi
        simp only at hdi
        by_cases hd : d = k + 1
        · rw [if_pos hd] at hdi
          have hi2 : i2 = i := by
            injection hdi with hh
            exact hh.symm
          refine ⟨by omega, by simp only [MAX_NUM_FD] at hk63 ⊢; omega, ?_, ?_, ?_⟩
          · simp only [List.length_set]
            rw [hi2]
            exact hi
          · simp only
            rw [hi2, getD_set_self s1.files i _ hi]
          · simp only
            rw [hd, Nat.add_sub_cancel, if_pos rfl]
        · rw [if_neg hd] at hdi
          have ho := h.1 d i2 hdi
          have hii : i2 ≠ i := by
            intro hh
            subst hh
            rw [ho.2.2.2.1] at hop
            cases hop
          refine ⟨ho.1, ho.2.1, ?_, ?_, ?_⟩
          · simp only [List.length_set]
            exact ho.2.2.1
          · simp only
            rw [getD_set_ne s1.files i i2 _ (fun hh => hii hh.symm)]
            exact ho.2.2.2.1
          · simp only
            by_cases hdk : d - 1 = k
            · rw [if_pos hdk]
            · rw [if_neg hdk]
              exact ho.2.2.2.2
      · intro d d' i2 hd hd'
        simp only at hd hd'
        by_cases h1d : d = k + 1
        · by_cases h2d : d' = k + 1
          · rw [h1d, h2d]
          · rw [if_pos h1d] at hd
            rw [if_neg h2d] at hd'
            have hi2 : i2 = i := by
              injection hd with hh
              exact hh.symm
            rw [hi2] at hd'
            have ho := h.1 d' i hd'
            rw [ho.2.2.2.1] at hop
            cases hop
        · by_cases h2d : d' = k + 1
          · rw [if_pos h2d] at hd'
            rw [if_neg h1d] at hd
            have hi2 : i2 = i := by
              injection hd' with hh
              exact hh.symm
            rw [hi2] at hd
            have ho := h.1 d i hd
            rw [ho.2.2.2.1] at hop
            cases hop
          · rw [if_neg h1d] at hd
            rw [if_neg h2d] at hd'
            exact h.2.1 d d' i2 hd hd'
      · simp only
        rw [if_neg (fun hh => hkne0 hh.symm)]
        exact h.2.2

theorem open_FdInv (s : FS) (name : List Nat) (mode : Nat) (h : FdInv s) :
    FdInv (file_system_open_file s name mode).2 := by
  rw [file_system_open_file]
  split
  · exact h
  · cases hff : find_file name s.files 0 none with
    | error e => exact h
    | ok found =>
      dsimp only
      cases found with
      | some i =>
        have htop := find_file_top s.files name i hff
        exact open_install_FdInv s i h htop.1 htop.2.2
      | none =>
        dsimp only
        by_cases hmode : mode = FILE_OPEN_CREATE_MODE
        · rw [if_pos hmode]
          by_cases hadd : (add_file_to_directory s
              { filename := name, start_block := 0, num_blocks := 0, size := 0,
                dir_data_off := 0, opened := false }).1 ≠ 0
          · rw [if_pos hadd]
            exact h
          · rw [if_neg hadd]
            dsimp only
            have hC : FdInv { (add_file_to_directory s
                { filename := name, start_block := 0, num_blocks := 0, size := 0,
                  dir_data_off := 0, opened := false }).2.2 with
                files := (add_file_to_directory s
                  { filename := name, start_block := 0, num_blocks := 0, size := 0,
                    dir_data_off := 0, opened := false }).2.2.files ++
                  [(add_file_to_directory s
                    { filename := name, start_block := 0, num_blocks := 0, size := 0,
                      dir_data_off := 0, opened := false }).2.1] } := by
              apply FdInv_append
              exact FdInv_of_components s _ (add_file_fd_eq s _).1 (add_file_fd_eq s _).2
                (by rw [add_file_files]) (fun j => by rw [add_file_files]) h
            apply open_install_FdInv _ _ hC
            · simp only [List.length_append, List.length_singleton]
              omega
            · simp only
              rw [getD_append_len]
              rw [add_file_rec_opened]
        · rw [if_neg hmode]
          exact h

theorem write_FdInv (s : FS) (fd : Nat) (data : Buf) (sz off : Nat) (h : FdInv s) :
    FdInv (file_system_write_to_file s fd data sz off).2 := by
  rw [file_system_write_to_file]
  split
  · exact h
  · cases hfa : s.file_array fd with
    | none => exact h
    | some i =>
      dsimp only
      repeat' split
      all_goals
        first
          | exact h
          | exact FdInv_of_components s _ (expand_file_size_shape s i (off + sz)).2.2.1
              (expand_file_size_shape s i (off + sz)).2.2.2
              (expand_file_size_shape s i (off + sz)).1
              (expand_file_size_shape s i (off + sz)).2.1 h

theorem close_FdInv (s : FS) (fd : Nat) (h : FdInv s) :
    FdInv (file_system_close_file s fd).2 := by
  rw [file_system_close_file]
  split
  · exact h
  · rename_i hguard
    cases hfa : s.file_array fd with
    | none => exact h
    | some i =>
      dsimp only
      split
      · exact h
      · rename_i hopen
        obtain ⟨h1, h2, h3⟩ := h
        have hfd := h1 fd i hfa
        simp only [MAX_NUM_FD] at hguard
        refine ⟨?_, ?_, ?_⟩
        · intro d i2 hdi
          simp only at hdi
          by_cases hd : d = fd
          · rw [if_pos hd] at hdi
            cases hdi
          · rw [if_neg hd] at hdi
            have ho := h1 d i2 hdi
            have hii : i2 ≠ i := by
              intro hh
              subst hh
              exact hd (h2 d fd i2 hdi hfa)
            refine ⟨ho.1, ho.2.1, ?_, ?_, ?_⟩
            · simp only [List.length_set]
              exact ho.2.2.1
            · simp only
              rw [getD_set_ne s.files i i2 _ (fun hh => hii hh.symm)]
              exact ho.2.2.2.1
            · simp only [mark_fd_as_unused, MAX_NUM_FD]
              rw [if_neg (by omega)]
              have hd1 : d - 1 ≠ fd - 1 := by
                have h2d := ho.1
                have h2fd := hfd.1
                omega
              rw [if_neg hd1]
              exact ho.2.2.2.2
        · intro d d' i2 hd hd'
          simp only at hd hd'
          by_cases h1d : d = fd
          · rw [if_pos h1d] at hd
            cases hd
          · by_cases h2d : d' = fd
            · rw [if_pos h2d] at hd'
              cases hd'
            · rw [if_neg h1d] at hd
              rw [if_neg h2d] at hd'
              exact h2 d d' i2 hd hd'
        · simp only [mark_fd_as_unused, MAX_NUM_FD]
          rw [if_neg (by omega)]
          have hfd2 := hfd.1
          rw [if_neg (by omega)]
          exact h3

theorem applyOp_FdInv (s : FS) (op : FSOp) (h : FdInv s) : FdInv (applyOp s op) := by
  cases op with
  | openf n m => exact open_FdInv s n m h
  | write fd d sz off => exact write_FdInv s fd d sz off h
  | readf fd sz off => exact h
  | closef fd => exact close_FdInv s fd h

theorem run_FdInv : ∀ (ops : List FSOp) (s : FS), FdInv s → FdInv (run s ops) := by
  intro ops
  induction ops with
  | nil => intro s h; exact h
  | cons op rest ih =>
    intro s h
    exact ih (applyOp s op) (applyOp_FdInv s op h)

theorem init_FdInv (disk : Disk) (p : Nat) : FdInv (init_file_system disk p) := by
  rw [init_file_system]
  have hbase : ∀ (fl : List File) (d : Buf) (ptr : Nat) (dk : Disk),
      FdInv { partition_num_blocks := p, fd_bitmap := (fun j => j == 0),
              file_array := (fun _ => none), files := fl, dir_data := d,
              dir_data_ptr := ptr, disk := dk } := by
    intro fl d ptr dk
    refine ⟨?_, ?_, ?_⟩
    · intro d2 i hdi
      simp at hdi
    · intro d2 d2' i hd hd'
      simp at hd
    · simp
  split
  · exact hbase _ _ _ _
  · simp only [flush_dir_data_to_storage]
    exact hbase _ _ _ _

theorem reachable_FdInv (s : FS) (h : Reachable s) : FdInv s := by
  rcases h with ⟨p, ops, rfl⟩
  exact run_FdInv ops _ (init_FdInv blankDisk p)

/-! Helper lemmas used by the claim theorems. -/

theorem find_file_no_match : ∀ (fl : List File) (name : List Nat) (i0 : Nat)
    (acc : Option Nat), (∀ f ∈ fl, f.filename ≠ name) →
    find_file name fl i0 acc = .ok acc := by
  intro fl
  induction fl with
  | nil => intro name i0 acc _; rfl
  | cons f rest ih =>
    intro name i0 acc h
    rw [find_file, if_neg (h f (List.mem_cons_self f rest))]
    exact ih name (i0 + 1) acc (fun x hx => h x (List.mem_cons_of_mem f hx))

theorem update_file_fail (d : Buf) (f : File)
    (h : f.dir_data_off + f.filename.length + 15 > DIR_DATA_SIZE) :
    (update_file_in_directory d f).1 ≠ 0 := by
  rw [update_file_in_directory]
  dsimp only
  by_cases h1 : f.filename.length > MAX_FILENAME_SIZE
  · rw [if_pos h1]
    dsimp only
    decide
  · rw [if_neg h1, if_pos h]
    dsimp only
    decide

theorem add_file_fail (s : FS) (f : File)
    (h : s.dir_data_ptr + f.filename.length + 15 > DIR_DATA_SIZE) :
    (add_file_to_directory s f).1 ≠ 0 ∧ (add_file_to_directory s f).2.2 = s := by
  rw [add_file_to_directory]
  have hne := update_file_fail s.dir_data { f with dir_data_off := s.dir_data_ptr }
    (by simp only; exact h)
  rw [if_pos hne]
  exact ⟨hne, rfl⟩

theorem blocked_tail_iff_spec (fl : List File) (i lo hi : Nat) (hilt : i < fl.length)
    (hself : ¬(lo ≤ (fl.getD i default).start_block ∧ (fl.getD i default).start_block < hi)) :
    blocked_tail fl lo hi = true ↔ spec_tail_blocked fl i lo hi := by
  rw [blocked_tail, List.any_eq_true]
  constructor
  · rintro ⟨g, hg, hgc⟩
    simp only [decide_eq_true_eq] at hgc
    rcases index_of_mem fl g hg with ⟨j, hj, hjg⟩
    by_cases hji : j = i
    · subst hji
      rw [hjg] at hself
      exact absurd hgc hself
    · exact ⟨j, hj, hji, by rw [hjg]; exact hgc.1, by rw [hjg]; exact hgc.2⟩
  · rintro ⟨j, hj, hji, hc1, hc2⟩
    exact ⟨fl.getD j default, getD_mem fl j hj, by
      simp only [decide_eq_true_eq]
      exact ⟨hc1, hc2⟩⟩

theorem open_alloc_range (s1 : FS) (i : Nat) (hbm0 : s1.fd_bitmap 0 = true) :
    (let r := get_unused_fd s1.fd_bitmap
     let s2 : FS := { s1 with fd_bitmap := r.2 }
     if r.1 < 0 then ((0 : Nat), s2)
     else
       let fd := r.1.toNat
       if fd = 0 ∨ fd ≥ MAX_NUM_FD then (0, s2)
       else if (s2.file_array fd).isSome then (0, s2)
       else
         (fd, { s2 with
           file_array := fun j => if j = fd then some i else s2.file_array j,
           files := s2.files.set i
             { s2.files.getD i default with opened := true } })).1 = 0 ∨
    (2 ≤ (let r := get_unused_fd s1.fd_bitmap
     let s2 : FS := { s1 with fd_bitmap := r.2 }
     if r.1 < 0 then ((0 : Nat), s2)
     else
       let fd := r.1.toNat
       if fd = 0 ∨ fd ≥ MAX_NUM_FD then (0, s2)
       else if (s2.file_array fd).isSome then (0, s2)
       else
         (fd, { s2 with
           file_array := fun j => if j = fd then some i else s2.file_array j,
           files := s2.files.set i
             { s2.files.getD i default with opened := true } })).1 ∧
     (let r := get_unused_fd s1.fd_bitmap
     let s2 : FS := { s1 with fd_bitmap := r.2 }
     if r.1 < 0 then ((0 : Nat), s2)
     else
       let fd := r.1.toNat
       if fd = 0 ∨ fd ≥ MAX_NUM_FD then (0, s2)
       else if (s2.file_array fd).isSome then (0, s2)
       else
         (fd, { s2 with
           file_array := fun j => if j = fd then some i else s2.file_array j,
           files := s2.files.set i
             { s2.files.getD i default with opened := true } })).1 < MAX_NUM_FD) := by
  cases hscan : scan_clear_bit s1.fd_bitmap 0 MAX_NUM_FD with
  | none =>
    have hg : get_unused_fd s1.fd_bitmap = (ERR_EXIST, s1.fd_bitmap) := by
      rw [get_unused_fd, hscan]
    simp only [hg]
    rw [if_pos (by decide)]
    left
    rfl
  | some k =>
    have hg : get_unused_fd s1.fd_bitmap =
        ((k : Int) + 1, fun j => if j = k then true else s1.fd_bitmap j) := by
      rw [get_unused_fd, hscan]
    obtain ⟨hk0, hk64, hkbm⟩ := scan_some_props s1.fd_bitmap MAX_NUM_FD 0 k hscan
    have hkne0 : k ≠ 0 := by
      intro hh
      rw [hh, hbm0] at hkbm
      cases hkbm
    simp only [hg]
    have htn : ((k : Int) + 1).toNat = k + 1 := by omega
    rw [if_neg (by omega)]
    simp only [htn]
    by_cases hk63 : k + 1 ≥ MAX_NUM_FD
    · rw [if_pos (Or.inr hk63)]
      left
      rfl
    · rw [if_neg (by simp only [MAX_NUM_FD] at hk63 ⊢; omega)]
      split
      · left; rfl
      · right
        simp only [MAX_NUM_FD] at hk63 ⊢
        omega

theorem getD_map_resetOpened : ∀ (l : List File) (i : Nat), i < l.length →
    (l.map resetOpened).getD i default = resetOpened (l.getD i default) := by
  intro l
  induction l with
  | nil => intro i h; simp at h
  | cons x xs ih =>
    intro i h
    cases i with
    | zero => rfl
    | succ m => exact ih m (by simpa using h)

/-! Claim theorems. -/

/-- C2: in every state reachable from a first-ever initialize on a blank
device by open, write, read and close operations, the block ranges of any
two distinct file records with a non-zero block count are disjoint. -/
theorem c2_disjoint_extents (s : FS) (h : Reachable s) :
    ∀ i j, i < s.files.length → j < s.files.length → i ≠ j →
    0 < (s.files.getD i default).num_blocks → 0 < (s.files.getD j default).num_blocks →
    Disjoint2 (s.files.getD i default) (s.files.getD j default) := by
  intro i j hi hj hij _ _
  exact (reachable_ExtInv s h).2 i j hi hj hij

/-- Witness for C2 at a concrete reachable two-file state. -/
theorem c2_disjoint_extents_witness :
    Disjoint2 ((run (init_file_system blankDisk 390) c2ops).files.getD 0 default)
      ((run (init_file_system blankDisk 390) c2ops).files.getD 1 default) :=
  c2_disjoint_extents (run (init_file_system blankDisk 390) c2ops) ⟨390, c2ops, rfl⟩
    0 1 (by decide) (by decide) (by decide) (by decide) (by decide)

/-- C3: on any list satisfying the extent invariant, expand_empty_file
chooses start_block = max(DIR_BLOCKS, max over all files of start_block +
num_blocks), fails with ERR_FOUND exactly when that start plus
needed_blocks reaches the partition size, and otherwise installs the new
extent. -/
theorem c3_allocate_empty_spec (s : FS) (i k : Nat) (hk : 0 < k)
    (hsz : (s.files.getD i default).size = 0) (hi : i < s.files.length)
    (hinv : ExtInv s.files) :
    empty_file_start s.files = spec_alloc_start s.files ∧
    ((expand_empty_file s i k).1 ≠ 0 ↔
      spec_alloc_start s.files + k ≥ s.partition_num_blocks) ∧
    (spec_alloc_start s.files + k ≥ s.partition_num_blocks →
      expand_empty_file s i k = (ERR_FOUND, s)) ∧
    (¬(spec_alloc_start s.files + k ≥ s.partition_num_blocks) →
      (expand_empty_file s i k).1 = 0 ∧
      (expand_empty_file s i k).2.files = s.files.set i
        { s.files.getD i default with
          start_block := spec_alloc_start s.files, num_blocks := k }) := by
  have hspec := empty_file_start_spec s.files hinv
  refine ⟨hspec, ?_, ?_, ?_⟩
  · rw [expand_empty_file, hspec]
    split
    · simp only
      constructor
      · intro _
        assumption
      · intro _
        decide
    · simp only
      constructor
      · intro hh
        exact absurd rfl hh
      · intro hh
        rename_i hcon
        exact absurd hh hcon
  · intro hge
    rw [expand_empty_file, hspec, if_pos hge]
  · intro hlt
    rw [expand_empty_file, hspec, if_neg hlt]
    exact ⟨rfl, rfl⟩

/-- Witness for C3 at a one-empty-file state. -/
theorem c3_allocate_empty_spec_witness :
    empty_file_start c3State.files = spec_alloc_start c3State.files ∧
    ((expand_empty_file c3State 0 1).1 ≠ 0 ↔
      spec_alloc_start c3State.files + 1 ≥ c3State.partition_num_blocks) ∧
    (spec_alloc_start c3State.files + 1 ≥ c3State.partition_num_blocks →
      expand_empty_file c3State 0 1 = (ERR_FOUND, c3State)) ∧
    (¬(spec_alloc_start c3State.files + 1 ≥ c3State.partition_num_blocks) →
      (expand_empty_file c3State 0 1).1 = 0 ∧
      (expand_empty_file c3State 0 1).2.files = c3State.files.set 0
        { c3State.files.getD 0 default with
          start_block := spec_alloc_start c3State.files, num_blocks := 1 }) :=
  c3_allocate_empty_spec c3State 0 1 (by decide) (by decide) (by decide)
    ⟨by
      intro f hf
      simp only [c3State] at hf
      rw [List.mem_singleton] at hf
      subst hf
      exact ⟨fun _ => rfl, fun hz => absurd rfl hz⟩,
     by
      intro i j hi hj hij
      simp only [c3State, List.length_singleton] at hi hj
      omega⟩

/-- C4 counterexample: with a single file occupying block 2 of a 4-block
partition, growing it by one block fails with ERR_FOUND even though no
other file starts in the tail range [3, 4) and the tail range does not
extend past PARTITION_BLOCKS (3 + 1 = 4). -/
theorem c4_counterexample :
    (expand_existing_file c4State 0 1).1 = ERR_FOUND ∧
    ¬(spec_tail_blocked c4State.files 0 3 4 ∨ 3 + 1 > c4State.partition_num_blocks) := by
  constructor
  · decide
  · rintro (⟨j, hj1, hj2, _, _⟩ | h4)
    · simp only [c4State, List.length_singleton] at hj1
      omega
    · simp only [c4State] at h4
      omega

/-- C4 amended: tail expansion of a non-empty record fails with ERR_FOUND
exactly when some other file's start_block lies in the tail range or the
tail end reaches or exceeds PARTITION_BLOCKS (end + needed ≥ p, not only
strictly past it); otherwise num_blocks grows by needed_blocks and the call
succeeds. -/
theorem c4_expand_existing_spec (s : FS) (i k : Nat) (hi : i < s.files.length)
    (hnum : 0 < (s.files.getD i default).num_blocks) (hk : 0 < k) :
    ((spec_tail_blocked s.files i
        ((s.files.getD i default).start_block + (s.files.getD i default).num_blocks)
        ((s.files.getD i default).start_block + (s.files.getD i default).num_blocks + k) ∨
      (s.files.getD i default).start_block + (s.files.getD i default).num_blocks + k ≥
        s.partition_num_blocks) →
      expand_existing_file s i k = (ERR_FOUND, s)) ∧
    (¬(spec_tail_blocked s.files i
        ((s.files.getD i default).start_block + (s.files.getD i default).num_blocks)
        ((s.files.getD i default).start_block + (s.files.getD i default).num_blocks + k) ∨
      (s.files.getD i default).start_block + (s.files.getD i default).num_blocks + k ≥
        s.partition_num_blocks) →
      (expand_existing_file s i k).1 = 0 ∧
      (expand_existing_file s i k).2.files = s.files.set i
        { s.files.getD i default with
          num_blocks := (s.files.getD i default).num_blocks + k }) := by
  have hself : ¬(((s.files.getD i default).start_block +
      (s.files.getD i default).num_blocks) ≤ (s.files.getD i default).start_block ∧
      (s.files.getD i default).start_block <
        (s.files.getD i default).start_block + (s.files.getD i default).num_blocks + k) := by
    omega
  have hiff := blocked_tail_iff_spec s.files i
    ((s.files.getD i default).start_block + (s.files.getD i default).num_blocks)
    ((s.files.getD i default).start_block + (s.files.getD i default).num_blocks + k) hi hself
  constructor
  · intro hcase
    rw [expand_existing_file]
    rcases hcase with hb | hp
    · rw [if_pos (hiff.mpr hb)]
    · cases hbt : blocked_tail s.files
        ((s.files.getD i default).start_block + (s.files.getD i default).num_blocks)
        ((s.files.getD i default).start_block + (s.files.getD i default).num_blocks + k) with
      | true => rw [if_pos rfl]
      | false =>
        rw [if_neg (by simp), if_pos hp]
  · intro hcase
    rw [expand_existing_file]
    have hb : blocked_tail s.files
        ((s.files.getD i default).start_block + (s.files.getD i default).num_blocks)
        ((s.files.getD i default).start_block + (s.files.getD i default).num_blocks + k) =
        false := by
      cases hbt : blocked_tail s.files
          ((s.files.getD i default).start_block + (s.files.getD i default).num_blocks)
          ((s.files.getD i default).start_block + (s.files.getD i default).num_blocks + k) with
      | false => rfl
      | true => exact absurd (Or.inl (hiff.mp hbt)) hcase
    rw [hb]
    rw [if_neg (by simp), if_neg (by omega)]
    exact ⟨rfl, rfl⟩

/-- Witness for the amended C4 at a concrete input where expansion
succeeds. -/
theorem c4_expand_existing_spec_witness :
    ((spec_tail_blocked c9State.files 0 3 4 ∨ 4 ≥ c9State.partition_num_blocks) →
      expand_existing_file c9State 0 1 = (ERR_FOUND, c9State)) ∧
    (¬(spec_tail_blocked c9State.files 0 3 4 ∨ 4 ≥ c9State.partition_num_blocks) →
      (expand_existing_file c9State 0 1).1 = 0 ∧
      (expand_existing_file c9State 0 1).2.files = c9State.files.set 0
        { c9State.files.getD 0 default with
          num_blocks := (c9State.files.getD 0 default).num_blocks + 1 }) :=
  c4_expand_existing_spec c9State 0 1 (by decide) (by decide) (by decide)

/-- C5: writing through a valid open descriptor with offset strictly beyond
the file size returns 0 and leaves the whole state, in particular the file
record and the stored data blocks, unchanged. -/
theorem c5_write_invalid_offset (s : FS) (fd : Nat) (data : Buf) (sz off : Nat) (i : Nat)
    (hfd0 : fd ≠ 0) (hfd : fd < MAX_NUM_FD) (hfa : s.file_array fd = some i)
    (hop : (s.files.getD i default).opened = true)
    (hoff : off > (s.files.getD i default).size) :
    file_system_write_to_file s fd data sz off = (0, s) := by
  rw [file_system_write_to_file]
  rw [if_neg (by simp only [MAX_NUM_FD] at hfd ⊢; omega)]
  rw [hfa]
  dsimp only
  rw [if_neg (by rw [hop]; simp)]
  rw [if_pos ⟨by omega, hoff⟩]

/-- Witness for C5 at a concrete state with one open file. -/
theorem c5_write_invalid_offset_witness :
    file_system_write_to_file
      { c9State with
        file_array := (fun j => if j = 2 then some 0 else none),
        files := [{ filename := [97], start_block := 2, num_blocks := 1,
                    size := 512, dir_data_off := 6, opened := true }] }
      2 (fun _ => 0) 4 600 =
      (0, { c9State with
            file_array := (fun j => if j = 2 then some 0 else none),
            files := [{ filename := [97], start_block := 2, num_blocks := 1,
                        size := 512, dir_data_off := 6, opened := true }] }) :=
  c5_write_invalid_offset _ 2 (fun _ => 0) 4 600 0 (by decide) (by decide) (by simp)
    (by decide) (by decide)

/-- C6: for every list satisfying the directory invariants, serializing
every record into the buffer and then parsing the buffer as initialize does
yields records with the same filenames, sizes, extents and directory
offsets in the same order (only the transient opened flag is reset). -/
theorem c6_directory_roundtrip (d : Buf) (fl : List File) (hwf : DirWf fl) :
    parse_dir (write_all_records d fl) fl.length 6 = (fl.map resetOpened, endPtr fl 6) ∧
    ∀ i, i < fl.length →
      ((fl.map resetOpened).getD i default).filename = (fl.getD i default).filename ∧
      ((fl.map resetOpened).getD i default).size = (fl.getD i default).size ∧
      ((fl.map resetOpened).getD i default).start_block = (fl.getD i default).start_block ∧
      ((fl.map resetOpened).getD i default).num_blocks = (fl.getD i default).num_blocks ∧
      ((fl.map resetOpened).getD i default).dir_data_off =
        (fl.getD i default).dir_data_off := by
  obtain ⟨hr, ho, he⟩ := hwf
  refine ⟨parse_dir_encoded fl (write_all_records d fl) 6 hr
    (serialize_encodes fl d 6 hr ho he) ho he, ?_⟩
  intro i hi
  rw [getD_map_resetOpened fl i hi]
  exact ⟨rfl, rfl, rfl, rfl, rfl⟩

/-- Witness for C6 at a concrete two-record directory. -/
theorem c6_directory_roundtrip_witness :
    parse_dir (write_all_records (fun _ => 0) c6List) c6List.length 6 =
      (c6List.map resetOpened, endPtr c6List 6) ∧
    ((c6List.map resetOpened).getD 0 default).filename =
      (c6List.getD 0 default).filename :=
  ⟨(c6_directory_roundtrip (fun _ => 0) c6List
      ⟨by
        intro f hf
        simp only [c6List, List.mem_cons, List.not_mem_nil, or_false] at hf
        rcases hf with h | h <;> subst h <;>
          exact ⟨by decide, by decide, by decide, by decide, by decide⟩,
       ⟨rfl, rfl, trivial⟩, by decide⟩).1,
   ((c6_directory_roundtrip (fun _ => 0) c6List
      ⟨by
        intro f hf
        simp only [c6List, List.mem_cons, List.not_mem_nil, or_false] at hf
        rcases hf with h | h <;> subst h <;>
          exact ⟨by decide, by decide, by decide, by decide, by decide⟩,
       ⟨rfl, rfl, trivial⟩, by decide⟩).2 0 (by decide)).1⟩

/-- C7: in every reachable state, an installed descriptor in [1, MAX_NUM_FD)
references a record whose opened flag is true with its bitmap bit (index
d - 1) set, and a descriptor whose bitmap bit is clear has an empty
file_table slot. -/
theorem c7_descriptor_table_inv (s : FS) (h : Reachable s) :
    (∀ d, 1 ≤ d → d < MAX_NUM_FD → ∀ i, s.file_array d = some i →
      (s.files.getD i default).opened = true ∧ s.fd_bitmap (d - 1) = true) ∧
    (∀ d, 1 ≤ d → d < MAX_NUM_FD → s.fd_bitmap (d - 1) = false →
      s.file_array d = none) := by
  have hf := reachable_FdInv s h
  constructor
  · intro d _ _ i hdi
    exact ⟨(hf.1 d i hdi).2.2.2.1, (hf.1 d i hdi).2.2.2.2⟩
  · intro d _ _ hbm
    cases hfa : s.file_array d with
    | none => rfl
    | some i =>
      have hbt := (hf.1 d i hfa).2.2.2.2
      rw [hbm] at hbt
      cases hbt

/-- Witness for C7 at the reachable state after one open. -/
theorem c7_descriptor_table_inv_witness :
    ((run (init_file_system blankDisk 390) [FSOp.openf [97] 1]).files.getD 0
      default).opened = true ∧
    (run (init_file_system blankDisk 390) [FSOp.openf [97] 1]).fd_bitmap 1 = true :=
  (c7_descriptor_table_inv (run (init_file_system blankDisk 390) [FSOp.openf [97] 1])
    ⟨390, [FSOp.openf [97] 1], rfl⟩).1 2 (by decide) (by decide) 0 (by decide)

/-- C8: in every reachable state, open returns either 0 or a descriptor d
with 2 ≤ d < MAX_NUM_FD; descriptor 1 is never returned because the pre-set
bitmap bit 0 corresponds to return value 1. -/
theorem c8_open_descriptor_range (s : FS) (h : Reachable s) (name : List Nat) (mode : Nat) :
    (file_system_open_file s name mode).1 = 0 ∨
    (2 ≤ (file_system_open_file s name mode).1 ∧
      (file_system_open_file s name mode).1 < MAX_NUM_FD) := by
  have hf := reachable_FdInv s h
  rw [file_system_open_file]
  split
  · left; rfl
  · cases hff : find_file name s.files 0 none with
    | error e => left; rfl
    | ok found =>
      dsimp only
      cases found with
      | some i => exact open_alloc_range s i hf.2.2
      | none =>
        dsimp only
        by_cases hmode : mode = FILE_OPEN_CREATE_MODE
        · rw [if_pos hmode]
          by_cases hadd : (add_file_to_directory s
              { filename := name, start_block := 0, num_blocks := 0, size := 0,
                dir_data_off := 0, opened := false }).1 ≠ 0
          · rw [if_pos hadd]
            left; rfl
          · rw [if_neg hadd]
            have hbm : (add_file_to_directory s
                { filename := name, start_block := 0, num_blocks := 0, size := 0,
                  dir_data_off := 0, opened := false }).2.2.fd_bitmap 0 = true := by
              rw [(add_file_fd_eq s _).2]
              exact hf.2.2
            exact open_alloc_range
              { (add_file_to_directory s
                  { filename := name, start_block := 0, num_blocks := 0, size := 0,
                    dir_data_off := 0, opened := false }).2.2 with
                files := (add_file_to_directory s
                  { filename := name, start_block := 0, num_blocks := 0, size := 0,
                    dir_data_off := 0, opened := false }).2.2.files ++
                  [(add_file_to_directory s
                    { filename := name, start_block := 0, num_blocks := 0, size := 0,
                      dir_data_off := 0, opened := false }).2.1] }
              ((add_file_to_directory s
                { filename := name, start_block := 0, num_blocks := 0, size := 0,
                  dir_data_off := 0, opened := false }).2.2.files.length)
              hbm
        · rw [if_neg hmode]
          left; rfl

/-- Witness for C8 at the initial state. -/
theorem c8_open_descriptor_range_witness :
    (file_system_open_file (init_file_system blankDisk 390) [97] 1).1 = 0 ∨
    (2 ≤ (file_system_open_file (init_file_system blankDisk 390) [97] 1).1 ∧
      (file_system_open_file (init_file_system blankDisk 390) [97] 1).1 < MAX_NUM_FD) :=
  c8_open_descriptor_range (init_file_system blankDisk 390) ⟨390, [], rfl⟩ [97] 1

/-- C9: in a state where every bitmap bit below 63 is set and bit 63 is
clear, opening an existing closed file returns 0 (the scan yields
MAX_NUM_FD, rejected as a descriptor) while bit 63, set during the scan,
remains set: the failed open consumes a descriptor slot. -/
theorem c9_failed_open_consumes_slot (s : FS) (f : File) (hfiles : s.files = [f])
    (hop : f.opened = false) (hbm : ∀ j, j < 63 → s.fd_bitmap j = true)
    (hbm63 : s.fd_bitmap 63 = false) :
    (file_system_open_file s f.filename FILE_OPEN_MODE).1 = 0 ∧
    (file_system_open_file s f.filename FILE_OPEN_MODE).2.fd_bitmap 63 = true := by
  rw [file_system_open_file]
  rw [if_neg (by simp)]
  have hff : find_file f.filename s.files 0 none = .ok (some 0) := by
    rw [hfiles, find_file, if_pos rfl, if_neg (by rw [hop]; simp), find_file]
  rw [hff]
  dsimp only
  have hscan : scan_clear_bit s.fd_bitmap 0 MAX_NUM_FD = some 63 :=
    scan_eq_some s.fd_bitmap MAX_NUM_FD 0 63 (by omega) (by simp only [MAX_NUM_FD]; omega)
      hbm63 (fun m _ hm => hbm m hm)
  have hg : get_unused_fd s.fd_bitmap =
      (((63 : Nat) : Int) + 1, fun j => if j = 63 then true else s.fd_bitmap j) := by
    rw [get_unused_fd, hscan]
  simp only [hg]
  rw [if_neg (by omega)]
  have htn : (((63 : Nat) : Int) + 1).toNat = 64 := by omega
  simp only [htn]
  rw [if_pos (Or.inr (by simp only [MAX_NUM_FD]; omega))]
  exact ⟨rfl, by simp⟩

/-- Witness for C9 at a concrete nearly-exhausted state. -/
theorem c9_failed_open_consumes_slot_witness :
    (file_system_open_file c9State [97] FILE_OPEN_MODE).1 = 0 ∧
    (file_system_open_file c9State [97] FILE_OPEN_MODE).2.fd_bitmap 63 = true :=
  c9_failed_open_consumes_slot c9State
    { filename := [97], start_block := 2, num_blocks := 1, size := 512,
      dir_data_off := 6, opened := false }
    (by decide) (by decide) (fun j hj => by simp only [c9State]; simpa using hj) (by decide)

/-- C10: an open-create whose record would not fit in the directory buffer
returns 0 and leaves the whole state unchanged: directory buffer, file
count, append cursor, file list and descriptor table. -/
theorem c10_failed_create_atomic (s : FS) (name : List Nat)
    (hnomatch : ∀ f ∈ s.files, f.filename ≠ name)
    (hfull : s.dir_data_ptr + name.length + 15 > DIR_DATA_SIZE) :
    file_system_open_file s name FILE_OPEN_CREATE_MODE = (0, s) := by
  rw [file_system_open_file]
  rw [if_neg (by simp)]
  rw [find_file_no_match s.files name 0 none hnomatch]
  dsimp only
  rw [if_pos rfl]
  rw [if_pos (add_file_fail s _ (by simp only; exact hfull)).1]

/-- Witness for C10 at a concrete nearly-full-directory state. -/
theorem c10_failed_create_atomic_witness :
    file_system_open_file c10State [99] FILE_OPEN_CREATE_MODE = (0, c10State) :=
  c10_failed_create_atomic c10State [99]
    (by
      intro f hf
      simp only [c10State] at hf
      rw [List.mem_singleton] at hf
      subst hf
      decide)
    (by decide)


theorem c1_open_eq (name : List Nat) (p : Nat) (hlen : name.length ≤ MAX_FILENAME_SIZE) :
    file_system_open_file (init_file_system blankDisk p) name FILE_OPEN_CREATE_MODE =
      (2, c1S1 name p) := by
  have hs0 : init_file_system blankDisk p =
      { partition_num_blocks := p, fd_bitmap := (fun j => j == 0),
        file_array := (fun _ => none), files := [], dir_data := c1Dir0,
        dir_data_ptr := 6,
        disk := write_blocks blankDisk c1Dir0 0 DIR_DATA_NUM_BLOCKS } := rfl
  have hadd : add_file_to_directory
      { partition_num_blocks := p, fd_bitmap := (fun j => j == 0),
        file_array := (fun _ => none), files := [], dir_data := c1Dir0,
        dir_data_ptr := 6,
        disk := write_blocks blankDisk c1Dir0 0 DIR_DATA_NUM_BLOCKS }
      { filename := name, start_block := 0, num_blocks := 0, size := 0,
        dir_data_off := 0, opened := false } =
      (0, { filename := name, start_block := 0, num_blocks := 0, size := 0,
            dir_data_off := 6, opened := false },
        { partition_num_blocks := p, fd_bitmap := (fun j => j == 0),
          file_array := (fun _ => none), files := [],
          dir_data := c1DirA name, dir_data_ptr := 6 + name.length + 15,
          disk := write_blocks (write_blocks blankDisk c1Dir0 0 DIR_DATA_NUM_BLOCKS)
            (c1DirA name) 0 DIR_DATA_NUM_BLOCKS }) := by
    rw [add_file_to_directory]
    dsimp only
    have hr1 : (update_file_in_directory c1Dir0
        { filename := name, start_block := 0, num_blocks := 0, size := 0,
          dir_data_off := 6, opened := false }).1 = 0 :=
      update_file_ret _ _ hlen (by
        simp only [DIR_DATA_SIZE, STORAGE_BLOCK_SIZE, DIR_DATA_NUM_BLOCKS,
          MAX_FILENAME_SIZE] at hlen ⊢
        omega)
    rw [hr1]
    rw [if_neg (fun h => h rfl)]
    rfl
  rw [hs0, file_system_open_file]
  rw [if_neg (by decide)]
  have hff : find_file name [] 0 none = Except.ok none := rfl
  dsimp only
  rw [hff]
  dsimp only
  rw [if_pos rfl]
  rw [hadd]
  dsimp only
  rw [if_neg (fun h => h rfl)]
  dsimp only
  have hg : get_unused_fd (fun j => (j == 0 : Bool)) =
      (((1 : Nat) : Int) + 1, fun j => if j = 1 then true else (j == 0 : Bool)) := by
    rw [get_unused_fd,
      (by decide : scan_clear_bit (fun j => (j == 0 : Bool)) 0 MAX_NUM_FD = some 1)]
  rw [hg]
  dsimp only
  rw [if_neg (by decide)]
  rw [if_neg (by decide)]
  rw [if_neg (by decide)]
  rfl


theorem c1_write_eq (name : List Nat) (data : Buf) (n p : Nat)
    (hlen : name.length ≤ MAX_FILENAME_SIZE) (hn1 : 0 < n)
    (hp : 2 + c1NB n < p) :
    file_system_write_to_file (c1S1 name p) 2 data n 0 = (n, c1S3 name data n p) := by
  have hgd : (c1S1 name p).files.getD 0 default =
      { filename := name, start_block := 0, num_blocks := 0, size := 0,
        dir_data_off := 6, opened := true } := rfl
  have hfit : (6 : Nat) + name.length + 15 ≤ DIR_DATA_SIZE := by
    simp only [DIR_DATA_SIZE, STORAGE_BLOCK_SIZE, DIR_DATA_NUM_BLOCKS,
      MAX_FILENAME_SIZE] at hlen ⊢
    omega
  have hempty : expand_empty_file (c1S1 name p) 0 (c1NB n) =
      (0, { c1S1 name p with
            disk := zero_fill (c1S1 name p).disk 2 (c1NB n),
            files := [{ filename := name, start_block := 2, num_blocks := c1NB n,
                        size := 0, dir_data_off := 6, opened := true }] }) := by
    rw [expand_empty_file]
    dsimp only
    have hsb : empty_file_start (c1S1 name p).files = 2 := rfl
    have hpp : (c1S1 name p).partition_num_blocks = p := rfl
    rw [hsb, hpp]
    rw [if_neg (show ¬(2 + c1NB n ≥ p) by omega)]
    rfl
  have hdirB : c1DirB name n =
      setU32 (setU32 (setU32
          (strcpyDir (setU16 (c1DirA name) 6 name.length) (6 + 2) name)
          (6 + 2 + name.length + 1) 2)
        (6 + 2 + name.length + 1 + 4) (c1NB n))
      (6 + 2 + name.length + 1 + 8) n :=
    encode_record_eq (c1DirA name)
      { filename := name, start_block := 2, num_blocks := c1NB n, size := n,
        dir_data_off := 6, opened := true } hlen hfit
  have hexp : expand_file_size (c1S1 name p) 0 n =
      (0, { c1S1 name p with
            files := [{ filename := name, start_block := 2, num_blocks := c1NB n,
                        size := n, dir_data_off := 6, opened := true }],
            dir_data := c1DirB name n,
            disk := write_blocks (zero_fill (c1S1 name p).disk 2 (c1NB n))
              (c1DirB name n) 0 DIR_DATA_NUM_BLOCKS }) := by
    rw [expand_file_size]
    dsimp only
    rw [hgd]
    dsimp only
    rw [if_neg (show ¬((0:Nat) ≥ n) by omega)]
    simp only [eq_self_iff_true, if_true]
    rw [if_neg (show ¬(STORAGE_BLOCK_SIZE - 0 % STORAGE_BLOCK_SIZE ≠ STORAGE_BLOCK_SIZE ∧
        STORAGE_BLOCK_SIZE - 0 % STORAGE_BLOCK_SIZE ≥ n) from fun hc => hc.1 (by decide))]
    rw [show (n / STORAGE_BLOCK_SIZE +
        if n % STORAGE_BLOCK_SIZE ≠ 0 then 1 else 0) = c1NB n from rfl]
    rw [hempty]
    dsimp only
    rw [if_neg (show ¬((0:Int) ≠ 0) from fun h => h rfl)]
    dsimp only [List.getD, List.get?, Option.getD, List.set]
    have hdd : (c1S1 name p).dir_data = c1DirA name := rfl
    rw [hdd]
    rw [update_file_ok (c1DirA name)
      { filename := name, start_block := 2, num_blocks := c1NB n, size := n,
        dir_data_off := 6, opened := true } hlen hfit]
    dsimp only
    rw [← hdirB]
    rfl
  rw [file_system_write_to_file]
  rw [if_neg (by decide)]
  have hfa : (c1S1 name p).file_array 2 = some 0 := rfl
  rw [hfa]
  dsimp only
  rw [hgd]
  dsimp only
  rw [if_neg (show ¬(true = false) by decide)]
  rw [if_neg (show ¬((0:Nat) < 0 + n ∧ (0:Nat) > 0) by omega)]
  rw [if_pos (show (0:Nat) < 0 + n by omega)]
  rw [Nat.zero_add]
  rw [hexp]
  dsimp only
  dsimp only [List.getD, List.get?, Option.getD]
  rw [if_neg (show ¬((0:Nat) ≥ n) by omega)]
  rw [if_neg (show ¬(n < n) by omega)]
  rw [Nat.zero_mod, Nat.sub_zero, Nat.zero_div]
  have hmin : (if STORAGE_BLOCK_SIZE > n then n else STORAGE_BLOCK_SIZE) =
      min 512 (n - 0) := by
    simp only [STORAGE_BLOCK_SIZE]
    rw [Nat.sub_zero, Nat.min_def]
    by_cases h : (512:Nat) ≤ n
    · rw [if_neg (by omega), if_pos h]
    · rw [if_pos (by omega), if_neg h]
  rw [hmin]
  have hloop := write_loop_zero data 2 n n 0
    (write_blocks (zero_fill (c1S1 name p).disk 2 (c1NB n)) (c1DirB name n) 0
      DIR_DATA_NUM_BLOCKS) 0 rfl (by omega) (by omega)
  rw [hloop.1]
  rfl


theorem c1_close_eq (name : List Nat) (data : Buf) (n p : Nat) :
    close_file_system (file_system_close_file (c1S3 name data n p) 2).2 =
      { c1S3 name data n p with
        files := [{ filename := name, start_block := 2, num_blocks := c1NB n,
                    size := n, dir_data_off := 6, opened := false }],
        file_array := fun j => if j = 2 then none else (c1S3 name data n p).file_array j,
        fd_bitmap := mark_fd_as_unused (c1S3 name data n p).fd_bitmap 2,
        disk := c1DiskFinal name data n p } := rfl

theorem c1_reinit_eq (name : List Nat) (data : Buf) (n p : Nat)
    (hname : ∀ b ∈ name, b ≠ 0 ∧ b < 256)
    (hlen : name.length ≤ MAX_FILENAME_SIZE) (hn2 : n < 4294967296) :
    init_file_system (c1DiskFinal name data n p) p = c1S5 name data n p := by
  have hfit : (6 : Nat) + name.length + 15 ≤ DIR_DATA_SIZE := by
    simp only [DIR_DATA_SIZE, STORAGE_BLOCK_SIZE, DIR_DATA_NUM_BLOCKS,
      MAX_FILENAME_SIZE] at hlen ⊢
    omega
  have hNB32 : c1NB n < 4294967296 := by
    simp only [c1NB, STORAGE_BLOCK_SIZE]
    by_cases h : n % 512 = 0
    · rw [if_neg (fun hc => hc h)]
      omega
    · rw [if_pos h]
      omega
  have hrb : ∀ j, j < DIR_DATA_SIZE → read_blocks (c1DiskFinal name data n p) 0 j =
      c1DirB name n j :=
    fun j hj => read_blocks_flush (c1Disk3 name data n p) (c1DirB name n) j hj
  have hencB : EncodedAt (c1DirB name n)
      { filename := name, start_block := 2, num_blocks := c1NB n, size := n,
        dir_data_off := 6, opened := false } :=
    (encode_record_spec (c1DirA name)
      { filename := name, start_block := 2, num_blocks := c1NB n, size := n,
        dir_data_off := 6, opened := true }
      ⟨hlen, hname, by dsimp only; decide, hNB32, hn2⟩ hfit).2
  have hencd : EncodedAt (read_blocks (c1DiskFinal name data n p) 0)
      { filename := name, start_block := 2, num_blocks := c1NB n, size := n,
        dir_data_off := 6, opened := false } := by
    refine encodedAt_congr (c1DirB name n) (read_blocks (c1DiskFinal name data n p) 0)
      _ (fun j h1 h2 => hrb j ?_) hencB
    simp only [recSize] at h2
    dsimp only at h1 h2
    simp only [DIR_DATA_SIZE, STORAGE_BLOCK_SIZE, DIR_DATA_NUM_BLOCKS,
      MAX_FILENAME_SIZE] at hlen ⊢
    omega
  have hsig : ∀ j, j < 4 → read_blocks (c1DiskFinal name data n p) 0 j = c1Dir0 j := by
    intro j hj
    rw [hrb j (by simp only [DIR_DATA_SIZE, STORAGE_BLOCK_SIZE, DIR_DATA_NUM_BLOCKS]; omega)]
    rw [show c1DirB name n j = c1DirA name j from
      encode_record_outside (c1DirA name)
        { filename := name, start_block := 2, num_blocks := c1NB n, size := n,
          dir_data_off := 6, opened := true } j (Or.inl (show j < 6 by omega))]
    rw [show c1DirA name j = encode_record c1Dir0
        { filename := name, start_block := 0, num_blocks := 0, size := 0,
          dir_data_off := 6, opened := false } j from
      setU16_outside _ 4 _ j (Or.inl (by omega))]
    rw [show encode_record c1Dir0
        { filename := name, start_block := 0, num_blocks := 0, size := 0,
          dir_data_off := 6, opened := false } j = c1Dir0 j from
      encode_record_outside c1Dir0 _ j (Or.inl (show j < 6 by omega))]
  have hE4 : getU16 (encode_record c1Dir0
      { filename := name, start_block := 0, num_blocks := 0, size := 0,
        dir_data_off := 6, opened := false }) 4 = 0 := by
    rw [getU16]
    rw [show encode_record c1Dir0
        { filename := name, start_block := 0, num_blocks := 0, size := 0,
          dir_data_off := 6, opened := false } 4 = c1Dir0 4 from
      encode_record_outside c1Dir0 _ 4 (Or.inl (show (4:Nat) < 6 by omega))]
    rw [show encode_record c1Dir0
        { filename := name, start_block := 0, num_blocks := 0, size := 0,
          dir_data_off := 6, opened := false } 5 = c1Dir0 5 from
      encode_record_outside c1Dir0 _ 5 (Or.inl (show (5:Nat) < 6 by omega))]
    rfl
  have hcnt : getU16 (read_blocks (c1DiskFinal name data n p) 0) 4 = 1 := by
    rw [getU16]
    rw [hrb 4 (by simp only [DIR_DATA_SIZE, STORAGE_BLOCK_SIZE, DIR_DATA_NUM_BLOCKS]; omega),
      hrb 5 (by simp only [DIR_DATA_SIZE, STORAGE_BLOCK_SIZE, DIR_DATA_NUM_BLOCKS]; omega)]
    rw [show c1DirB name n 4 = c1DirA name 4 from
      encode_record_outside (c1DirA name)
        { filename := name, start_block := 2, num_blocks := c1NB n, size := n,
          dir_data_off := 6, opened := true } 4 (Or.inl (show (4:Nat) < 6 by omega))]
    rw [show c1DirB name n 5 = c1DirA name 5 from
      encode_record_outside (c1DirA name)
        { filename := name, start_block := 2, num_blocks := c1NB n, size := n,
          dir_data_off := 6, opened := true } 5 (Or.inl (show (5:Nat) < 6 by omega))]
    rw [show c1DirA name 4 = (getU16 (encode_record c1Dir0
        { filename := name, start_block := 0, num_blocks := 0, size := 0,
          dir_data_off := 6, opened := false }) 4 + 1) % 256 from setU16_at0 _ 4 _]
    rw [show c1DirA name 5 = (getU16 (encode_record c1Dir0
        { filename := name, start_block := 0, num_blocks := 0, size := 0,
          dir_data_off := 6, opened := false }) 4 + 1) / 256 % 256 from setU16_at1 _ 4 _]
    rw [hE4]
  have hparse : parse_dir (read_blocks (c1DiskFinal name data n p) 0) 1 6 =
      ([{ filename := name, start_block := 2, num_blocks := c1NB n, size := n,
          dir_data_off := 6, opened := false }], 6 + (name.length + 15)) := by
    have h := parse_dir_encoded
      [{ filename := name, start_block := 2, num_blocks := c1NB n, size := n,
         dir_data_off := 6, opened := false }]
      (read_blocks (c1DiskFinal name data n p) 0) 6
      (fun f hf => by
        rw [List.mem_singleton] at hf
        subst hf
        exact ⟨hlen, hname, by dsimp only; decide, hNB32, hn2⟩)
      (fun f hf => by
        rw [List.mem_singleton] at hf
        subst hf
        exact hencd)
      ⟨rfl, trivial⟩
      (by
        simp only [endPtr, recSize]
        simp only [DIR_DATA_SIZE, STORAGE_BLOCK_SIZE, DIR_DATA_NUM_BLOCKS,
          MAX_FILENAME_SIZE] at hlen ⊢
        omega)
    exact h
  have hb0 : read_blocks (c1DiskFinal name data n p) 0 0 = 36 :=
    (hsig 0 (by omega)).trans rfl
  have hb1 : read_blocks (c1DiskFinal name data n p) 0 1 = 37 :=
    (hsig 1 (by omega)).trans rfl
  have hb2 : read_blocks (c1DiskFinal name data n p) 0 2 = 94 :=
    (hsig 2 (by omega)).trans rfl
  have hb3 : read_blocks (c1DiskFinal name data n p) 0 3 = 38 :=
    (hsig 3 (by omega)).trans rfl
  rw [init_file_system]
  dsimp only
  rw [if_pos ⟨hb0, hb1, hb2, hb3⟩]
  rw [hcnt, hparse]
  rfl

theorem c1_reopen_eq (name : List Nat) (data : Buf) (n p : Nat) :
    file_system_open_file (c1S5 name data n p) name FILE_OPEN_MODE =
      (2, c1S6 name data n p) := by
  rw [file_system_open_file]
  rw [if_neg (by decide)]
  have hff : find_file name (c1S5 name data n p).files 0 none = Except.ok (some 0) := by
    rw [show (c1S5 name data n p).files =
        [{ filename := name, start_block := 2, num_blocks := c1NB n, size := n,
           dir_data_off := 6, opened := false }] from rfl]
    rw [find_file]
    rw [if_pos (show
      ({ filename := name, start_block := 2, num_blocks := c1NB n, size := n,
         dir_data_off := 6, opened := false } : File).filename = name from rfl)]
    rw [if_neg (show
      ¬(({ filename := name, start_block := 2, num_blocks := c1NB n, size := n,
           dir_data_off := 6, opened := false } : File).opened = true) from
      fun h => Bool.noConfusion h)]
    rw [find_file]
  rw [hff]
  dsimp only
  rw [show (c1S5 name data n p).fd_bitmap = (fun j => (j == 0 : Bool)) from rfl]
  have hg : get_unused_fd (fun j => (j == 0 : Bool)) =
      (((1 : Nat) : Int) + 1, fun j => if j = 1 then true else (j == 0 : Bool)) := by
    rw [get_unused_fd,
      (by decide : scan_clear_bit (fun j => (j == 0 : Bool)) 0 MAX_NUM_FD = some 1)]
  rw [hg]
  dsimp only
  rw [if_neg (by decide)]
  rw [if_neg (by decide)]
  rw [show (c1S5 name data n p).file_array = (fun _ => (none : Option Nat)) from rfl]
  dsimp only
  rw [if_neg (by decide)]
  rfl

theorem c1_read_eq (name : List Nat) (data : Buf) (n p : Nat) (hn1 : 0 < n) :
    (file_system_read_from_file (c1S6 name data n p) 2 (fun _ => 0) n 0).1 = n ∧
    ∀ j, j < n →
      (file_system_read_from_file (c1S6 name data n p) 2 (fun _ => 0) n 0).2 j = data j := by
  rw [file_system_read_from_file]
  rw [if_neg (by decide)]
  rw [show (c1S6 name data n p).file_array 2 = some 0 from rfl]
  dsimp only
  rw [show (c1S6 name data n p).files.getD 0 default =
      { filename := name, start_block := 2, num_blocks := c1NB n, size := n,
        dir_data_off := 6, opened := true } from rfl]
  dsimp only
  rw [if_neg (show ¬(true = false) by decide)]
  rw [if_neg (show ¬((0:Nat) ≥ n) by omega)]
  rw [Nat.zero_add]
  rw [if_neg (show ¬(n < n) by omega)]
  rw [Nat.zero_mod, Nat.sub_zero, Nat.zero_div]
  have hmin : (if STORAGE_BLOCK_SIZE > n then n else STORAGE_BLOCK_SIZE) =
      min 512 (n - 0) := by
    simp only [STORAGE_BLOCK_SIZE]
    rw [Nat.sub_zero, Nat.min_def]
    by_cases h : (512:Nat) ≤ n
    · rw [if_neg (by omega), if_pos h]
    · rw [if_pos (by omega), if_neg h]
  rw [hmin]
  rw [show (c1S6 name data n p).disk = c1DiskFinal name data n p from rfl]
  have hloop := read_loop_zero (c1DiskFinal name data n p) 2 n n 0 (fun _ => 0) 0
    rfl (by omega) (by omega)
  refine ⟨hloop.1, ?_⟩
  intro j hj
  rw [hloop.2 j]
  rw [if_pos ⟨by omega, hj⟩]
  rw [show c1DiskFinal name data n p (2 + j / 512) (j % 512) =
      c1Disk3 name data n p (2 + j / 512) (j % 512) from
    write_blocks_outside _ _ 0 DIR_DATA_NUM_BLOCKS _ _
      (Or.inr (by simp only [DIR_DATA_NUM_BLOCKS]; omega))]
  rw [show c1Disk3 name data n p = (write_loop data 2 n n
      (write_blocks (zero_fill (c1S1 name p).disk 2 (c1NB n)) (c1DirB name n) 0
        DIR_DATA_NUM_BLOCKS)
      0 0 0 (min 512 (n - 0))).2 from rfl]
  rw [(write_loop_zero data 2 n n 0
    (write_blocks (zero_fill (c1S1 name p).disk 2 (c1NB n)) (c1DirB name n) 0
      DIR_DATA_NUM_BLOCKS) 0 rfl (by omega) (by omega)).2 (2 + j / 512) (j % 512)]
  rw [if_pos ⟨by omega, by omega, by omega, by omega⟩]
  rw [show (2 + j / 512 - 2) * 512 + j % 512 = j from by omega]


/-- C1: persistence round trip: open-create a file on a freshly initialized
blank device, write `n` bytes at offset 0, close the file, shut the file
system down, re-initialize from the same device contents with the same
partition size, re-open the file and read `n` bytes at offset 0: the write
reports `n` bytes written and the read returns `n` bytes that equal the
bytes originally written. -/
theorem c1_persistence_roundtrip (name : List Nat) (data : Buf) (n p : Nat)
    (hname : ∀ b ∈ name, b ≠ 0 ∧ b < 256)
    (hlen : name.length ≤ MAX_FILENAME_SIZE)
    (hn1 : 0 < n) (hn2 : n < 4294967296)
    (hp : 2 + c1NB n < p) :
    let o1 := file_system_open_file (init_file_system blankDisk p) name
      FILE_OPEN_CREATE_MODE
    let w := file_system_write_to_file o1.2 o1.1 data n 0
    let s3 := close_file_system (file_system_close_file w.2 o1.1).2
    let o2 := file_system_open_file (init_file_system s3.disk p) name FILE_OPEN_MODE
    let r := file_system_read_from_file o2.2 o2.1 (fun _ => 0) n 0
    w.1 = n ∧ r.1 = n ∧ ∀ j, j < n → r.2 j = data j := by
  dsimp only
  rw [c1_open_eq name p hlen]
  dsimp only
  rw [c1_write_eq name data n p hlen hn1 hp]
  dsimp only
  rw [c1_close_eq name data n p]
  dsimp only
  rw [c1_reinit_eq name data n p hname hlen hn2]
  rw [c1_reopen_eq name data n p]
  dsimp only
  have hr := c1_read_eq name data n p hn1
  exact ⟨rfl, hr.1, hr.2⟩

/-- Witness for C1 at a one-byte name, three written bytes. -/
theorem c1_persistence_roundtrip_witness :
    (file_system_read_from_file
      (file_system_open_file
        (init_file_system
          (close_file_system
            (file_system_close_file
              (file_system_write_to_file
                (file_system_open_file (init_file_system blankDisk 390) [104]
                  FILE_OPEN_CREATE_MODE).2
                (file_system_open_file (init_file_system blankDisk 390) [104]
                  FILE_OPEN_CREATE_MODE).1
                (fun _ => 7) 3 0).2
              (file_system_open_file (init_file_system blankDisk 390) [104]
                FILE_OPEN_CREATE_MODE).1).2).disk
          390)
        [104] FILE_OPEN_MODE).2
      (file_system_open_file
        (init_file_system
          (close_file_system
            (file_system_close_file
              (file_system_write_to_file
                (file_system_open_file (init_file_system blankDisk 390) [104]
                  FILE_OPEN_CREATE_MODE).2
                (file_system_open_file (init_file_system blankDisk 390) [104]
                  FILE_OPEN_CREATE_MODE).1
                (fun _ => 7) 3 0).2
              (file_system_open_file (init_file_system blankDisk 390) [104]
                FILE_OPEN_CREATE_MODE).1).2).disk
          390)
        [104] FILE_OPEN_MODE).1
      (fun _ => 0) 3 0).2 0 = 7 :=
  (c1_persistence_roundtrip [104] (fun _ => 7) 3 390 (by decide) (by decide) (by decide)
    (by decide) (by decide)).2.2 0 (by decide)

end OctoFS
